import Mathlib

/-!
# cspace::Mat : a colorspace tag on top of cv::Mat

Shallow embedding of `color_matrix.h` / `color_matrix.cpp`.

* `cv.Mat` is the OpenCV matrix header (size, pixel type, data pointer); the
  pixel bytes live in a `cv.Heap` of shared buffers, so two headers with the
  same data pointer see the same pixels.
* `cspace.Mat` extends the header with the `colorspace` member.
* `assert` failures and `throw std::runtime_error` are values of
  `cspace.Failure`, one constructor per site of the source.
* The numeric work of `cv::cvtColor` is a parameter (`cv.Primitives`): one
  function on pixel bytes per conversion code.
-/

namespace cv

/-- Pixel type code `CV_8UC1` of OpenCV (`CV_MAKETYPE(CV_8U, 1)`). -/
def CV_8UC1 : Nat := 0

/-- Pixel type code `CV_8UC3` of OpenCV (`CV_MAKETYPE(CV_8U, 3)`). -/
def CV_8UC3 : Nat := 16

/-- Channel count of a pixel type code, `CV_MAT_CN(type) = (type >> 3) + 1`. -/
def CV_MAT_CN (type : Nat) : Nat := type / 8 + 1

/-- Header of a two-dimensional continuous `cv::Mat`: `rows`, `cols`, `type()`
and the `data` pointer (`none` is the null pointer, `some p` names buffer `p`
of the heap). Reference counts are not tracked: no buffer is ever reclaimed. -/
structure Mat where
  rows : Nat
  cols : Nat
  type : Nat
  data : Option Nat
deriving DecidableEq, Repr

/-- Default constructor `cv::Mat()`: no rows, no columns, null data; `type()`
of such a header is 0, which is `CV_8UC1`. -/
def Mat.default : Mat := { rows := 0, cols := 0, type := 0, data := none }

/-- Method `cv::Mat::channels()`. -/
def Mat.channels (m : Mat) : Nat := CV_MAT_CN m.type

/-- The shared pixel buffers: `bufs p` is the byte sequence of buffer `p`,
`next` the first pointer not handed out yet. -/
structure Heap where
  bufs : Nat → List Nat
  next : Nat

/-- Pixel bytes seen through a header. -/
def Heap.read (h : Heap) (m : Mat) : List Nat :=
  match m.data with
  | some p => h.bufs p
  | none => []

/-- Overwrite the buffer behind a data pointer (every header sharing it sees the change). -/
def Heap.write (h : Heap) (data : Option Nat) (bytes : List Nat) : Heap :=
  match data with
  | some p => { h with bufs := Function.update h.bufs p bytes }
  | none => h

/-- The data pointer of `m`, when not null, is one the heap has handed out. -/
def Heap.allocated (h : Heap) (m : Mat) : Prop :=
  ∀ p, m.data = some p → p < h.next

/-- Allocate a fresh buffer holding `bytes`; returns the new heap and the pointer. -/
def Heap.alloc (h : Heap) (bytes : List Nat) : Heap × Nat :=
  ({ bufs := Function.update h.bufs h.next bytes, next := h.next + 1 }, h.next)

/-- The conversion codes of `cv::cvtColor` used by the source. -/
inductive ColorConversionCode
  | COLOR_HSV2BGR
  | COLOR_BGR2GRAY
  | COLOR_RGB2GRAY
  | COLOR_BGR2HSV
  | COLOR_RGB2HSV
  | COLOR_GRAY2BGR
  | COLOR_RGB2BGR
deriving DecidableEq, Repr

/-- The pixel arithmetic of `cv::cvtColor`, one function on pixel bytes per
conversion code. It belongs to OpenCV and is left arbitrary. -/
abbrev Primitives := ColorConversionCode → List Nat → List Nat

/-- Pixel type `cv::cvtColor` gives its destination (with `dstCn = 0`):
one 8-bit channel for the two `*2GRAY` codes, three 8-bit channels otherwise. -/
def dstType : ColorConversionCode → Nat
  | .COLOR_BGR2GRAY => CV_8UC1
  | .COLOR_RGB2GRAY => CV_8UC1
  | _ => CV_8UC3

/-- Call `cv::cvtColor(src, dst, code)` on headers. The converted bytes are
computed from the pixels of `src`; `dst.create(src.size(), type)` keeps the
buffer of `dst` when `dst` already has that size and type and non-null data
(the bytes are then written into that buffer, shared or not), and gives `dst`
a fresh buffer otherwise. Returns the new heap and the new header of `dst`. -/
def cvtColor (prim : Primitives) (h : Heap) (src dst : Mat) (code : ColorConversionCode) :
    Heap × Mat :=
  let bytes := prim code (h.read src)
  if dst.rows = src.rows ∧ dst.cols = src.cols ∧ dst.type = dstType code ∧ dst.data.isSome then
    (h.write dst.data bytes, dst)
  else
    let a := h.alloc bytes
    (a.1, { rows := src.rows, cols := src.cols, type := dstType code, data := some a.2 })

end cv

namespace cspace

open cv (CV_8UC1 CV_8UC3)

/-- The enum `colorspace_t` of `color_matrix.h`. -/
inductive colorspace_t
  | UNKNOWN
  | BGR
  | RGB
  | HSV
  | GRAY
  | WHITE_ON_BLACK
deriving DecidableEq, Repr

open colorspace_t

/-- The ways a call of the source can fail, one per `assert` / `throw` site. -/
inductive Failure
  /-- Failed `assert(("this is a 3 channel matrix", in.type() == CV_8UC3))`. -/
  | assert_3_channel
  /-- Failed `assert(("this is a single channel matrix", in.type() == CV_8UC1))`. -/
  | assert_single_channel
  /-- Failed `assert(("known colorspace", c != UNKNOWN))`. -/
  | assert_known_colorspace
  /-- Failed `assert(("color depth insufficient for visualization", hls.size() < 256))`. -/
  | assert_color_depth
  /-- Thrown `std::runtime_error("colorspace not implemented")` (either capitalisation). -/
  | colorspace_not_implemented
  /-- Thrown `std::runtime_error("colorspace 3 channel / not fully implemented")`. -/
  | colorspace_3_channel_not_implemented
  /-- Integer division by zero in `255 / num_hls`. -/
  | division_by_zero
deriving DecidableEq, Repr

/-- The error kinds of the specification. -/
inductive ErrorKind
  | ColorspaceMismatch
  | UnsupportedConversion
  | CapacityExceeded
  | Arithmetic
deriving DecidableEq, Repr

/-- Error kind under which the specification files each failure site. -/
def Failure.kind : Failure → ErrorKind
  | .assert_3_channel => .ColorspaceMismatch
  | .assert_single_channel => .ColorspaceMismatch
  | .assert_known_colorspace => .UnsupportedConversion
  | .assert_color_depth => .CapacityExceeded
  | .colorspace_not_implemented => .UnsupportedConversion
  | .colorspace_3_channel_not_implemented => .UnsupportedConversion
  | .division_by_zero => .Arithmetic

/-- Function `checkColorspaceMatch(in, c)`. The `default:` branch of the
switch cannot be taken by a value of the enum. -/
def checkColorspaceMatch (m : cv.Mat) (c : colorspace_t) : Except Failure Unit :=
  if m.rows ≠ 0 ∧ m.cols ≠ 0 then
    match c with
    | BGR | RGB | HSV =>
      if m.type = CV_8UC3 then .ok () else .error .assert_3_channel
    | GRAY | WHITE_ON_BLACK =>
      if m.type = CV_8UC1 then .ok () else .error .assert_single_channel
    | UNKNOWN => .ok ()
  else .ok ()

/-- Class `cspace::Mat`: a `cv::Mat` with the member `colorspace`. -/
structure Mat extends cv.Mat where
  colorspace : colorspace_t
deriving DecidableEq, Repr

/-- A default-constructed `cspace::Mat` (`new Mat`): empty header, `colorspace = UNKNOWN`. -/
def Mat.new : Mat := { toMat := cv.Mat.default, colorspace := UNKNOWN }

/-- Method `getColorspace()`. -/
def Mat.getColorspace (self : Mat) : colorspace_t := self.colorspace

deriving instance DecidableEq for Except

/-- Result of a call that works on its receiver: whether it failed, and the
receiver as the call left it. -/
abbrev Outcome := Except Failure Unit × Mat

/-- Run `k` on the receiver left by `r` unless `r` failed. -/
def Outcome.andThen (r : Outcome) (k : Mat → Outcome) : Outcome :=
  match r with
  | (.error e, s) => (.error e, s)
  | (.ok _, s) => k s

/-- Method `Mat::setColorspace(c)`. -/
def Mat.setColorspace (self : Mat) (c : colorspace_t) : Outcome :=
  match checkColorspaceMatch self.toMat c with
  | .error e => (.error e, self)
  | .ok _ => (.ok (), { self with colorspace := c })

/-- Method `cspace::Mat::operator=(const cv::Mat &m)` for `this != &m`: the
check of `m` against the current tag, the two re-tagging `if`s (which run
`setColorspace` while the receiver still holds its old buffer), then the copy
of the header fields of `m`. -/
def Mat.operator_assign (self : Mat) (m : cv.Mat) : Outcome :=
  match checkColorspaceMatch m self.getColorspace with
  | .error e => (.error e, self)
  | .ok _ =>
    Outcome.andThen (if m.type = CV_8UC1 then self.setColorspace GRAY else (.ok (), self))
      fun s1 =>
    Outcome.andThen
      (if m.type = CV_8UC3 then
        (if s1.colorspace = GRAY then s1.setColorspace BGR else (.ok (), s1))
       else (.ok (), s1))
      fun s2 => (.ok (), { s2 with toMat := m })

/-- The implicitly declared copy assignment `operator=(const cspace::Mat &)`.
The class declares only `operator=(const cv::Mat &)`, so overload resolution
picks the implicit one whenever the right-hand side is a `cspace::Mat`, as in
`*out = *this` and `*out = toGray()`: base subobject and `colorspace` are both
copied and no check is made (the test `BGR_to_gray` relies on it, assigning a
gray result to an image tagged `BGR`). -/
def Mat.copy_assign (_self : Mat) (m : Mat) : Mat := m

/-- Call `cvtColor(src, *out, code)` with a `cspace::Mat` destination: the call
works on the `cv::Mat` base of `out` and leaves its `colorspace` alone. -/
def cvtColor (prim : cv.Primitives) (h : cv.Heap) (src : cv.Mat) (out : Mat)
    (code : cv.ColorConversionCode) : cv.Heap × Mat :=
  let r := cv.cvtColor prim h src out.toMat code
  (r.1, { out with toMat := r.2 })

/-- Method `Mat::toGray()`; returns the heap after the call and `*out`.
In the `HSV` case both `cvtColor` calls read `*this`, the second one after
falling through into `case BGR`. -/
def Mat.toGray (prim : cv.Primitives) (h : cv.Heap) (self : Mat) :
    Except Failure (cv.Heap × Mat) :=
  match Mat.new.setColorspace GRAY with
  | (.error e, _) => .error e
  | (.ok _, out) =>
    match self.colorspace with
    | GRAY | WHITE_ON_BLACK =>
      match (out.copy_assign self).setColorspace GRAY with
      | (.error e, _) => .error e
      | (.ok _, out) => .ok (h, out)
    | HSV =>
      let r := cvtColor prim h self.toMat out .COLOR_HSV2BGR
      .ok (cvtColor prim r.1 self.toMat r.2 .COLOR_BGR2GRAY)
    | BGR => .ok (cvtColor prim h self.toMat out .COLOR_BGR2GRAY)
    | RGB => .ok (cvtColor prim h self.toMat out .COLOR_RGB2GRAY)
    | UNKNOWN => .error .colorspace_not_implemented

/-- Method `Mat::toHSV()`. -/
def Mat.toHSV (prim : cv.Primitives) (h : cv.Heap) (self : Mat) :
    Except Failure (cv.Heap × Mat) :=
  match Mat.new.setColorspace HSV with
  | (.error e, _) => .error e
  | (.ok _, out) =>
    match self.colorspace with
    | HSV => .ok (h, out.copy_assign self)
    | BGR => .ok (cvtColor prim h self.toMat out .COLOR_BGR2HSV)
    | RGB => .ok (cvtColor prim h self.toMat out .COLOR_RGB2HSV)
    | GRAY | WHITE_ON_BLACK =>
      let r := cvtColor prim h self.toMat out .COLOR_GRAY2BGR
      .ok (cvtColor prim r.1 r.2.toMat r.2 .COLOR_BGR2HSV)
    | UNKNOWN => .error .colorspace_not_implemented

/-- Method `Mat::toBGR()`. `case BGR` has no `break`: after `*out = *this`
control falls into `case HSV`. -/
def Mat.toBGR (prim : cv.Primitives) (h : cv.Heap) (self : Mat) :
    Except Failure (cv.Heap × Mat) :=
  match Mat.new.setColorspace BGR with
  | (.error e, _) => .error e
  | (.ok _, out) =>
    match self.colorspace with
    | BGR => .ok (cvtColor prim h self.toMat (out.copy_assign self) .COLOR_HSV2BGR)
    | HSV => .ok (cvtColor prim h self.toMat out .COLOR_HSV2BGR)
    | RGB => .ok (cvtColor prim h self.toMat out .COLOR_RGB2BGR)
    | GRAY | WHITE_ON_BLACK => .ok (cvtColor prim h self.toMat out .COLOR_GRAY2BGR)
    | UNKNOWN => .error .colorspace_not_implemented

/-- Method `Mat::to3ChannelGray(c)`. -/
def Mat.to3ChannelGray (prim : cv.Primitives) (h : cv.Heap) (self : Mat) (c : colorspace_t) :
    Except Failure (cv.Heap × Mat) :=
  if c = UNKNOWN then .error .assert_known_colorspace else
  match Mat.new.setColorspace c with
  | (.error e, _) => .error e
  | (.ok _, out) =>
    let first : Except Failure (cv.Heap × Mat) :=
      match self.colorspace with
      | GRAY | WHITE_ON_BLACK =>
        match (out.copy_assign self).setColorspace GRAY with
        | (.error e, _) => .error e
        | (.ok _, out) => .ok (h, out)
      | _ =>
        match self.toGray prim h with
        | .error e => .error e
        | .ok (h1, g) => .ok (h1, out.copy_assign g)
    match first with
    | .error e => .error e
    | .ok (h1, out) =>
      match c with
      | BGR | RGB =>
        match out.toBGR prim h1 with
        | .error e => .error e
        | .ok (h2, b) => .ok (h2, out.copy_assign b)
      | HSV =>
        match out.toHSV prim h1 with
        | .error e => .error e
        | .ok (h2, b) => .ok (h2, out.copy_assign b)
      | _ => .error .colorspace_3_channel_not_implemented

/-- The three stores `(*it_out)[0] = hue; (*it_out)[1] = 255; (*it_out)[2] = 255`
at pixel `k` of a 3-channel byte sequence. -/
def setVec3b (bytes : List Nat) (k hue : Nat) : List Nat :=
  ((bytes.set (3 * k) hue).set (3 * k + 1) 255).set (3 * k + 2) 255

/-- One turn of the pixel loop: pixel `k` of `out` is painted when element `k`
of the mask `hl` is above 127 (a mask shorter than `out` reads as 0 there). -/
def highlight_pixel (hue : Nat) (hl out : cv.Mat) (h : cv.Heap) (k : Nat) : cv.Heap :=
  if (h.read hl).getD k 0 > 127 then h.write out.data (setVec3b (h.read out) k hue) else h

/-- The pixel loop over `out->begin<cv::Vec3b>() .. out->end<cv::Vec3b>()` for one mask. -/
def highlight_mask (hue : Nat) (hl out : cv.Mat) (h : cv.Heap) : cv.Heap :=
  (List.range (out.rows * out.cols)).foldl (highlight_pixel hue hl out) h

/-- Function `highlightOverBg(Mat bg, Mat hl)`, the single-mask form (hue 100). -/
def highlightOverBg (prim : cv.Primitives) (h : cv.Heap) (bg hl : Mat) :
    Except Failure (cv.Heap × Mat) :=
  match Mat.new.setColorspace HSV with
  | (.error e, _) => .error e
  | (.ok _, out) =>
    match bg.to3ChannelGray prim h HSV with
    | .error e => .error e
    | .ok (h1, g) =>
      let out := out.copy_assign g
      out.toBGR prim (highlight_mask 100 hl.toMat out.toMat h1)

/-- The vector `hue_map` built from `uchar num_hls`: `hue_step = 255 / num_hls`
and entry `i` is `(i + 1) * hue_step`, both stored in a `uchar`. -/
def hue_map (num_hls : Nat) : List Nat :=
  (List.range num_hls).map fun i => ((i + 1) * (255 / num_hls % 256)) % 256

/-- The loop over the masks: mask number `hue_idx` is painted with `hue_map[hue_idx]`. -/
def highlight_masks (hues : List Nat) (out : cv.Mat) (h : cv.Heap) (hls : List Mat) : cv.Heap :=
  (hls.foldl
    (fun (st : cv.Heap × Nat) hl =>
      (highlight_mask (hues.getD st.2 0) hl.toMat out st.1, st.2 + 1))
    (h, 0)).1

/-- Function `highlightOverBg(Mat bg, std::list<Mat> hls)`. -/
def highlightOverBg_list (prim : cv.Primitives) (h : cv.Heap) (bg : Mat) (hls : List Mat) :
    Except Failure (cv.Heap × Mat) :=
  match Mat.new.setColorspace HSV with
  | (.error e, _) => .error e
  | (.ok _, out) =>
    match bg.to3ChannelGray prim h HSV with
    | .error e => .error e
    | .ok (h1, g) =>
      let out := out.copy_assign g
      if ¬ hls.length < 256 then .error .assert_color_depth else
      let num_hls := hls.length % 256
      if num_hls = 0 then .error .division_by_zero else
      out.toBGR prim (highlight_masks (hue_map num_hls) out.toMat h1 hls)

/-- Function `highlightOverBg(Mat bg, std::vector<Mat> hls)`; its body is the
same text as the list form. -/
def highlightOverBg_vector (prim : cv.Primitives) (h : cv.Heap) (bg : Mat) (hls : List Mat) :
    Except Failure (cv.Heap × Mat) :=
  match Mat.new.setColorspace HSV with
  | (.error e, _) => .error e
  | (.ok _, out) =>
    match bg.to3ChannelGray prim h HSV with
    | .error e => .error e
    | .ok (h1, g) =>
      let out := out.copy_assign g
      if ¬ hls.length < 256 then .error .assert_color_depth else
      let num_hls := hls.length % 256
      if num_hls = 0 then .error .division_by_zero else
      out.toBGR prim (highlight_masks (hue_map num_hls) out.toMat h1 hls)

/-! ## Vocabulary of the specification -/

/-- Pixel type a tag requires: `CV_8UC3` for `BGR`, `RGB`, `HSV`; `CV_8UC1`
for `GRAY`, `WHITE_ON_BLACK`; none for `UNKNOWN`. -/
def requiredType : colorspace_t → Option Nat
  | BGR | RGB | HSV => some CV_8UC3
  | GRAY | WHITE_ON_BLACK => some CV_8UC1
  | UNKNOWN => none

/-- Channel count a tag requires: 3, 1 or none. -/
def requiredChannels : colorspace_t → Option Nat
  | BGR | RGB | HSV => some 3
  | GRAY | WHITE_ON_BLACK => some 1
  | UNKNOWN => none

/-- The five supported tags, that is every tag but `UNKNOWN`. -/
def supported (c : colorspace_t) : Prop := c ≠ UNKNOWN

/-- The cases in which the specification lets `setColorspace(c)` go through:
the buffer is empty (`rows` or `cols` is 0), or `c` is `UNKNOWN`, or `c` is a
3-channel tag on a `CV_8UC3` buffer, or `c` is a 1-channel tag on a `CV_8UC1`
buffer. -/
def accepts (m : cv.Mat) (c : colorspace_t) : Prop :=
  m.rows = 0 ∨ m.cols = 0 ∨ c = UNKNOWN ∨
    ((c = BGR ∨ c = RGB ∨ c = HSV) ∧ m.type = CV_8UC3) ∨
    ((c = GRAY ∨ c = WHITE_ON_BLACK) ∧ m.type = CV_8UC1)

/-- The tag/buffer invariant of the specification: the buffer is empty, or the
tag is `UNKNOWN`, or the channel count of the buffer is the one the tag requires. -/
def consistent (m : Mat) : Prop :=
  m.rows = 0 ∨ m.cols = 0 ∨ m.colorspace = UNKNOWN ∨
    some m.toMat.channels = requiredChannels m.colorspace

/-- The pixel type of the buffer is the one its tag requires. -/
def typeMatches (m : Mat) : Prop :=
  m.colorspace = UNKNOWN ∨ some m.type = requiredType m.colorspace

/-- Images that calls of the interface can produce: the constructors, then any
successful `setColorspace`, `operator=`, conversion or compositing call, on any
heap and with any arguments. -/
inductive Reachable (prim : cv.Primitives) : Mat → Prop
  | new : Reachable prim Mat.new
  | construct (b : cv.Mat) : Reachable prim { toMat := b, colorspace := UNKNOWN }
  | setColorspace {m m1 : Mat} (c : colorspace_t) :
      Reachable prim m → m.setColorspace c = (.ok (), m1) → Reachable prim m1
  | operator_assign {m m1 : Mat} (b : cv.Mat) :
      Reachable prim m → m.operator_assign b = (.ok (), m1) → Reachable prim m1
  | toGray {m out : Mat} (h h1 : cv.Heap) :
      Reachable prim m → m.toGray prim h = .ok (h1, out) → Reachable prim out
  | toHSV {m out : Mat} (h h1 : cv.Heap) :
      Reachable prim m → m.toHSV prim h = .ok (h1, out) → Reachable prim out
  | toBGR {m out : Mat} (h h1 : cv.Heap) :
      Reachable prim m → m.toBGR prim h = .ok (h1, out) → Reachable prim out
  | to3ChannelGray {m out : Mat} (h h1 : cv.Heap) (c : colorspace_t) :
      Reachable prim m → m.to3ChannelGray prim h c = .ok (h1, out) → Reachable prim out
  | highlightOverBg {bg out : Mat} (h h1 : cv.Heap) (hl : Mat) :
      Reachable prim bg → highlightOverBg prim h bg hl = .ok (h1, out) → Reachable prim out
  | highlightOverBg_list {bg out : Mat} (h h1 : cv.Heap) (hls : List Mat) :
      Reachable prim bg → highlightOverBg_list prim h bg hls = .ok (h1, out) →
      Reachable prim out
  | highlightOverBg_vector {bg out : Mat} (h h1 : cv.Heap) (hls : List Mat) :
      Reachable prim bg → highlightOverBg_vector prim h bg hls = .ok (h1, out) →
      Reachable prim out

/-! ## A sample table of primitives

Integer versions of the usual 8-bit formulas, used to run the model on concrete
pixels. No theorem about the source depends on them. -/

/-- Apply `f` to each group of three bytes. -/
def mapVec3b (f : Nat → Nat → Nat → List Nat) : List Nat → List Nat
  | a :: b :: c :: rest => f a b c ++ mapVec3b f rest
  | _ => []

/-- Luma of 8-bit OpenCV: `(1868 B + 9617 G + 4899 R + 8192) >> 14`. -/
def luma (b g r : Nat) : Nat := (1868 * b + 9617 * g + 4899 * r + 8192) / 16384

/-- Hue, saturation, value (hue in 0..179) to blue, green, red. -/
def hsv2bgr (hh s v : Nat) : List Nat :=
  let f := hh % 30
  let p := v * (255 - s) / 255
  let q := v * (7650 - s * f) / 7650
  let t := v * (7650 - s * (30 - f)) / 7650
  match hh / 30 % 6 with
  | 0 => [p, t, v]
  | 1 => [p, v, q]
  | 2 => [t, v, p]
  | 3 => [v, q, p]
  | 4 => [v, p, t]
  | _ => [q, p, v]

/-- Blue, green, red to hue (0..179), saturation, value. -/
def bgr2hsv (b g r : Nat) : List Nat :=
  let v := max b (max g r)
  let d := v - min b (min g r)
  let s := if v = 0 then 0 else 255 * d / v
  let hh :=
    if d = 0 then 0
    else if v = r then (if b ≤ g then 30 * (g - b) / d else 180 - 30 * (b - g) / d) % 180
    else if v = g then (if r ≤ b then 60 + 30 * (b - r) / d else 60 - 30 * (r - b) / d)
    else (if g ≤ r then 120 + 30 * (r - g) / d else 120 - 30 * (g - r) / d)
  [hh, s, v]

/-- The sample table. -/
def samplePrimitives : cv.Primitives
  | .COLOR_HSV2BGR => mapVec3b hsv2bgr
  | .COLOR_BGR2GRAY => mapVec3b fun b g r => [luma b g r]
  | .COLOR_RGB2GRAY => mapVec3b fun r g b => [luma b g r]
  | .COLOR_BGR2HSV => mapVec3b bgr2hsv
  | .COLOR_RGB2HSV => mapVec3b fun r g b => bgr2hsv b g r
  | .COLOR_GRAY2BGR => fun ys => ys.flatMap fun y => [y, y, y]
  | .COLOR_RGB2BGR => mapVec3b fun r g b => [b, g, r]

/-- A heap whose buffer 0 holds `bytes`. -/
def heapWith (bytes : List Nat) : cv.Heap :=
  { bufs := fun p => if p = 0 then bytes else [], next := 1 }

/-- The image `cspace::Mat(rows, cols, type, ...)` over buffer 0, tagged `c`. -/
def image (rows cols type : Nat) (c : colorspace_t) : Mat :=
  { rows := rows, cols := cols, type := type, data := some 0, colorspace := c }

/-- Every buffer the heap `h` has handed out is still there, unchanged, in `h1`. -/
def keeps (h h1 : cv.Heap) : Prop :=
  h.next ≤ h1.next ∧ ∀ q, q < h.next → h1.bufs q = h.bufs q

/-- The conversion `GRAY2BGR` taken as replication of each gray byte into three channels. -/
def replicatesGray (prim : cv.Primitives) : Prop :=
  ∀ ys, prim .COLOR_GRAY2BGR ys = ys.flatMap fun y => [y, y, y]

/-- The three channel bytes of pixel `k` of a 3-channel byte sequence. -/
def Vec3b_at (bytes : List Nat) (k : Nat) : Option Nat × Option Nat × Option Nat :=
  (bytes[3 * k]?, bytes[3 * k + 1]?, bytes[3 * k + 2]?)

/-- The pixel loop of one mask on the bytes of the working buffer alone: pixel
`k` of `buf` is painted when element `k` of `mask` is above 127. -/
def paint_mask (hue : Nat) (mask : List Nat) (n : Nat) (buf : List Nat) : List Nat :=
  (List.range n).foldl (fun b k => if mask.getD k 0 > 127 then setVec3b b k hue else b) buf

/-- The loop over the masks on the bytes of the working buffer alone, from hue index `i0`. -/
def paint_masks (hues : List Nat) (n : Nat) (masks : List (List Nat)) (i0 : Nat)
    (buf : List Nat) : List Nat × Nat :=
  masks.foldl (fun st m => (paint_mask (hues.getD st.2 0) m n st.1, st.2 + 1)) (buf, i0)

/-- The heap `h` with buffer `p` replaced by `b`. -/
def withBuf (h : cv.Heap) (p : Nat) (b : List Nat) : cv.Heap :=
  { bufs := Function.update h.bufs p b, next := h.next }

/-- Value at pixel `p` of mask number `j` of the collection (0 past the end of
the collection). -/
def mask_at (h : cv.Heap) (hls : List Mat) (j p : Nat) : Nat :=
  match hls[j]? with
  | some hl => (h.read hl.toMat).getD p 0
  | none => 0

/-- Pixel bytes of the image a call returned, if it returned one. -/
def pixelsOf (r : Except Failure (cv.Heap × Mat)) : Option (List Nat) :=
  match r with
  | .ok (h, m) => some (h.read m.toMat)
  | .error _ => none

/-- Image (header and tag) a call returned, if it returned one. -/
def imageOf (r : Except Failure (cv.Heap × Mat)) : Option Mat :=
  match r with
  | .ok (_, m) => some m
  | .error _ => none

/-- A heap holding the given buffers at pointers 0, 1, 2, ... -/
def heapOf (bufs : List (List Nat)) : cv.Heap :=
  { bufs := fun p => bufs.getD p [], next := bufs.length }

/-- The image `cspace::Mat(rows, cols, type, ...)` over buffer `p`, tagged `c`. -/
def imageAt (p rows cols type : Nat) (c : colorspace_t) : Mat :=
  { rows := rows, cols := cols, type := type, data := some p, colorspace := c }

/-- Bytes of the working buffer `*out` of `highlightOverBg` at the moment
`out->toBGR()` is called: the buffer returned by `bg.to3ChannelGray(HSV)` after
the pixel loops `paint` (given the header of `*out` and the heap). -/
def workingBuffer (prim : cv.Primitives) (h : cv.Heap) (bg : Mat)
    (paint : cv.Mat → cv.Heap → cv.Heap) : Option (List Nat) :=
  match bg.to3ChannelGray prim h HSV with
  | .ok (h1, g) => some ((paint g.toMat h1).read g.toMat)
  | .error _ => none

/-- Pixel bytes seen through the header `m` once a call has returned. -/
def pixelsThrough (r : Except Failure (cv.Heap × Mat)) (m : cv.Mat) : Option (List Nat) :=
  match r with
  | .ok (h, _) => some (h.read m)
  | .error _ => none

end cspace

/-!
# smart_tree::Branch : a tree of shared pointers

Shallow embedding of `smart_tree.h`. The `Branch` objects live in a store
indexed by address; a `shared_ptr` is the address of a live object, the
`weak_ptr parent` is an optional address that counts as expired once the object
it names is no longer alive.
-/

namespace smart_tree

/-- The ways `addChild` and `removeChild` can fail. -/
inductive TreeFailure
  /-- Failed `assert(("Prospective child is parentless", child->parent.expired() == true))`. -/
  | assert_parentless
  /-- Thrown `"is not a child of parent"`. -/
  | not_a_child
deriving DecidableEq, Repr

/-- Class `Branch<T>`: the public `data`, the `weak_ptr parent` (`none` when
empty) and the vector `children` of shared pointers. -/
structure Branch (T : Type) where
  data : T
  parent : Option Nat
  children : List Nat

/-- The objects by address, and which of them are still alive (owned by some
`shared_ptr`). -/
structure Store (T : Type) where
  obj : Nat → Branch T
  alive : Nat → Bool

variable {T : Type}

/-- Method `weak_ptr::expired()`: the pointer is empty or its object is gone. -/
def expired (s : Store T) (w : Option Nat) : Bool :=
  match w with
  | none => true
  | some q => !s.alive q

/-- Method `weak_ptr::lock()`: the object, unless expired. -/
def lock (s : Store T) (w : Option Nat) : Option Nat :=
  if expired s w then none else w

/-- Method `Branch::isRoot()`. -/
def isRoot (s : Store T) (n : Nat) : Bool := expired s (s.obj n).parent

/-- Method `Branch::getParent()`. -/
def getParent (s : Store T) (n : Nat) : Option Nat := lock s (s.obj n).parent

/-- Method `Branch::getNumChildren()`. -/
def getNumChildren (s : Store T) (n : Nat) : Nat := (s.obj n).children.length

/-- Result of a call on the store: whether it failed, and the store as the call left it. -/
abbrev TreeOutcome (T : Type) := Except TreeFailure Unit × Store T

/-- Function `addChild(parent, child)`: the assertion, then
`parent->children.emplace_back(child)`, then `child->parent = parent`. -/
def addChild (s : Store T) (parent child : Nat) : TreeOutcome T :=
  if expired s (s.obj child).parent = true then
    let grown : Branch T :=
      { (s.obj parent) with children := (s.obj parent).children ++ [child] }
    let s1 : Store T := { s with obj := Function.update s.obj parent grown }
    let adopted : Branch T := { (s1.obj child) with parent := some parent }
    let s2 : Store T := { s1 with obj := Function.update s1.obj child adopted }
    (.ok (), s2)
  else (.error .assert_parentless, s)

/-- The loop of `removeChild` over `parent->children`: the vector without the
first element equal to `child`, or nothing when the loop reaches `end`. -/
def eraseFirst (child : Nat) : List Nat → Option (List Nat)
  | [] => none
  | x :: xs => if child = x then some xs else (eraseFirst child xs).map (x :: ·)

/-- Function `removeChild(parent, child)`: on the first match
`parent->children.erase(iter)`, then `child->parent.reset()`; the `throw` when
there is no match. -/
def removeChild (s : Store T) (parent child : Nat) : TreeOutcome T :=
  match eraseFirst child (s.obj parent).children with
  | some rest =>
    let shrunk : Branch T := { (s.obj parent) with children := rest }
    let s1 : Store T := { s with obj := Function.update s.obj parent shrunk }
    let orphan : Branch T := { (s1.obj child) with parent := none }
    let s2 : Store T := { s1 with obj := Function.update s1.obj child orphan }
    (.ok (), s2)
  | none => (.error .not_a_child, s)

/-- Stores that the interface can produce: new parentless, childless objects,
then successful `addChild` and `removeChild` calls on live objects, writes to
the public `data`, and the destruction of an object that no `children` vector
holds (its own vector goes with it). -/
inductive Built : Store T → Prop
  | fresh (d : Nat → T) :
      Built { obj := fun n => { data := d n, parent := none, children := [] },
              alive := fun _ => true }
  | addChild {s s1 : Store T} (p c : Nat) :
      Built s → s.alive p = true → s.alive c = true →
      smart_tree.addChild s p c = (.ok (), s1) → Built s1
  | removeChild {s s1 : Store T} (p c : Nat) :
      Built s → s.alive p = true → s.alive c = true →
      smart_tree.removeChild s p c = (.ok (), s1) → Built s1
  | setData {s : Store T} (n : Nat) (d : T) :
      Built s → Built { s with obj := Function.update s.obj n { (s.obj n) with data := d } }
  | destroy {s : Store T} (q : Nat) :
      Built s → (∀ n, q ∉ (s.obj n).children) →
      Built { obj := Function.update s.obj q { (s.obj q) with children := [] },
              alive := Function.update s.alive q false }

/-- The invariant behind the single-parent rule: no vector of children has a
repeated entry, and every entry of the vector of `p` has `p`, alive, as parent. -/
def wellParented (s : Store T) : Prop :=
  (∀ p, (s.obj p).children.Nodup) ∧
  ∀ p c, c ∈ (s.obj p).children → (s.obj c).parent = some p ∧ s.alive p = true

/-- A store of fresh objects with data 0: no parent, no children, all alive. -/
def freshNodes : Store Nat :=
  { obj := fun _ => { data := 0, parent := none, children := [] }, alive := fun _ => true }

end smart_tree

namespace cspace

open cv (CV_8UC1 CV_8UC3)
open colorspace_t

/-! ## Tagging and buffer assignment -/

theorem checkColorspaceMatch_ok_iff (m : cv.Mat) (c : colorspace_t) :
    checkColorspaceMatch m c = .ok () ↔ accepts m c := by
  unfold checkColorspaceMatch accepts
  by_cases hr : m.rows = 0
  · simp [hr]
  · by_cases hc : m.cols = 0
    · simp [hc]
    · cases c <;> by_cases h3 : m.type = CV_8UC3 <;> by_cases h1 : m.type = CV_8UC1 <;>
        simp [hr, hc, h3, h1]

theorem checkColorspaceMatch_error_kind (m : cv.Mat) (c : colorspace_t) (f : Failure)
    (h : checkColorspaceMatch m c = .error f) : f.kind = .ColorspaceMismatch := by
  unfold checkColorspaceMatch at h
  split at h
  · cases c <;> simp only at h <;>
      first
      | cases h
      | (split at h
         · cases h
         · cases h; rfl)
  · cases h

theorem setColorspace_of_accepts (m : Mat) (c : colorspace_t) (h : accepts m.toMat c) :
    m.setColorspace c = (.ok (), { m with colorspace := c }) := by
  have h1 := (checkColorspaceMatch_ok_iff m.toMat c).2 h
  simp [Mat.setColorspace, h1]

theorem setColorspace_of_not_accepts (m : Mat) (c : colorspace_t) (h : ¬ accepts m.toMat c) :
    ∃ f, m.setColorspace c = (.error f, m) ∧ f.kind = .ColorspaceMismatch := by
  have h1 := mt (checkColorspaceMatch_ok_iff m.toMat c).1 h
  cases hc : checkColorspaceMatch m.toMat c with
  | ok u => cases u; exact absurd hc h1
  | error f =>
    exact ⟨f, by simp [Mat.setColorspace, hc], checkColorspaceMatch_error_kind _ _ _ hc⟩

/-- C1: `setColorspace(c)` succeeds, after which `getColorspace()` returns `c`,
exactly when the buffer is empty, or `c` is `UNKNOWN`, or `c` is a 3-channel
tag on a `CV_8UC3` buffer, or `c` is a 1-channel tag on a `CV_8UC1` buffer; in
every other case it fails with a colorspace mismatch and the image, tag
included, is as before. An empty image accepts every tag, and a non-empty
1-channel image rejects `setColorspace(BGR)`. -/
theorem setColorspace_contract (m : Mat) (c : colorspace_t) :
    ((m.setColorspace c).1 = .ok () ↔ accepts m.toMat c) ∧
    (accepts m.toMat c →
      m.setColorspace c = (.ok (), { m with colorspace := c }) ∧
      (m.setColorspace c).2.getColorspace = c) ∧
    (¬ accepts m.toMat c →
      ∃ f, m.setColorspace c = (.error f, m) ∧ f.kind = .ColorspaceMismatch) ∧
    (m.rows = 0 ∨ m.cols = 0 → (m.setColorspace c).1 = .ok ()) ∧
    (m.rows ≠ 0 → m.cols ≠ 0 → m.type = CV_8UC1 →
      ∃ f, m.setColorspace BGR = (.error f, m) ∧ f.kind = .ColorspaceMismatch) := by
  refine ⟨?_, ?_, setColorspace_of_not_accepts m c, ?_, ?_⟩
  · constructor
    · intro h
      by_contra hn
      obtain ⟨f, hf, _⟩ := setColorspace_of_not_accepts m c hn
      rw [hf] at h
      cases h
    · intro h
      rw [setColorspace_of_accepts m c h]
  · intro h
    rw [setColorspace_of_accepts m c h]
    exact ⟨rfl, rfl⟩
  · intro h
    have ha : accepts m.toMat c := by
      rcases h with h | h
      · exact Or.inl h
      · exact Or.inr (Or.inl h)
    rw [setColorspace_of_accepts m c ha]
  · intro hr hc h1
    apply setColorspace_of_not_accepts
    simp [accepts, hr, hc, h1, CV_8UC1, CV_8UC3]

/-- C1 at the image of the test `sanity_check_set_color_known_data`: a 2x2
`CV_8UC1` image rejects `BGR` and keeps its tag, while the default-constructed
image takes it. -/
theorem setColorspace_contract_witness :
    (∃ f, (image 2 2 CV_8UC1 UNKNOWN).setColorspace BGR = (.error f, image 2 2 CV_8UC1 UNKNOWN) ∧
      f.kind = .ColorspaceMismatch) ∧
    (Mat.new.setColorspace BGR).1 = .ok () :=
  ⟨(setColorspace_contract (image 2 2 CV_8UC1 UNKNOWN) BGR).2.2.2.2
      (by decide) (by decide) (by decide),
   (setColorspace_contract Mat.new BGR).2.2.2.1 (Or.inl (by decide))⟩

/-- C2: while the image is tagged with one of the five supported tags, whose
required channel count is `k`, assigning with `operator=(const cv::Mat&)` a
non-empty buffer whose channel count is not `k` fails with a colorspace
mismatch, and the image (tag and buffer) is as before. -/
theorem operator_assign_rejects_channel_mismatch (self : Mat) (m : cv.Mat) (k : Nat)
    (hk : requiredChannels self.colorspace = some k)
    (hrows : m.rows ≠ 0) (hcols : m.cols ≠ 0) (hch : m.channels ≠ k) :
    ∃ f, self.operator_assign m = (.error f, self) ∧ f.kind = .ColorspaceMismatch := by
  have hna : ¬ accepts m self.colorspace := by
    unfold accepts
    cases hcs : self.colorspace <;> rw [hcs] at hk <;>
      simp [requiredChannels] at hk <;> subst hk <;>
      simp [hrows, hcols] <;> intro ht <;> apply hch <;>
      simp [cv.Mat.channels, cv.CV_MAT_CN, ht, CV_8UC1, CV_8UC3]
  have h1 := mt (checkColorspaceMatch_ok_iff m self.colorspace).1 hna
  cases hc : checkColorspaceMatch m self.colorspace with
  | ok u => cases u; exact absurd hc h1
  | error f =>
    exact ⟨f, by simp [Mat.operator_assign, Mat.getColorspace, hc],
      checkColorspaceMatch_error_kind _ _ _ hc⟩

/-- C2 at the images of the test `sanity_check_known_color_set_data`: an empty
image tagged `RGB` rejects a 2x2 1-channel buffer. -/
theorem operator_assign_rejects_channel_mismatch_witness :
    ∃ f, ({ Mat.new with colorspace := RGB } : Mat).operator_assign
        { rows := 2, cols := 2, type := CV_8UC1, data := some 0 } =
          (.error f, { Mat.new with colorspace := RGB }) ∧
      f.kind = .ColorspaceMismatch :=
  operator_assign_rejects_channel_mismatch { Mat.new with colorspace := RGB }
    { rows := 2, cols := 2, type := CV_8UC1, data := some 0 } 3 rfl
    (by decide) (by decide) (by decide)

/-- C3, evaluated where it fails: a 2x2 `CV_8UC3` image tagged `UNKNOWN` is
assigned a 2x2 `CV_8UC1` buffer. The buffer passes the check against the tag,
then `setColorspace(GRAY)` is run against the 3-channel buffer the image still
holds and fails; the same happens to a `BGR` image assigned an empty `cv::Mat()`. -/
theorem operator_assign_single_channel_over_color_buffer :
    checkColorspaceMatch { rows := 2, cols := 2, type := CV_8UC1, data := some 1 }
        (image 2 2 CV_8UC3 UNKNOWN).getColorspace = .ok () ∧
    (image 2 2 CV_8UC3 UNKNOWN).operator_assign
        { rows := 2, cols := 2, type := CV_8UC1, data := some 1 } =
      (.error .assert_single_channel, image 2 2 CV_8UC3 UNKNOWN) ∧
    (image 2 2 CV_8UC3 BGR).operator_assign cv.Mat.default =
      (.error .assert_single_channel, image 2 2 CV_8UC3 BGR) := by
  decide

/-- C4 fails as stated: an empty image tagged `GRAY` that is assigned a 2x2
`CV_8UC3` buffer fails the check of the buffer against `GRAY`; it does not
succeed and its tag does not become `BGR`. -/
theorem operator_assign_gray_then_color_counterexample :
    ({ Mat.new with colorspace := GRAY } : Mat).operator_assign
        { rows := 2, cols := 2, type := CV_8UC3, data := some 0 } =
      (.error .assert_single_channel, { Mat.new with colorspace := GRAY }) ∧
    ¬ ∃ s, ({ Mat.new with colorspace := GRAY } : Mat).operator_assign
        { rows := 2, cols := 2, type := CV_8UC3, data := some 0 } = (.ok (), s) ∧
      s.colorspace = BGR := by
  constructor
  · decide
  · rintro ⟨s, hs, -⟩
    have h : ({ Mat.new with colorspace := GRAY } : Mat).operator_assign
        { rows := 2, cols := 2, type := CV_8UC3, data := some 0 } =
      (.error .assert_single_channel, { Mat.new with colorspace := GRAY }) := by decide
    rw [h] at hs
    cases hs

/-- C4 as amended: for an image tagged `GRAY` and an incoming `CV_8UC3`
buffer, a non-empty incoming buffer is rejected with a colorspace mismatch and
the image is as before; an empty incoming buffer assigned to an image whose own
buffer is empty is accepted and the tag afterwards is `BGR`. -/
theorem operator_assign_gray_then_color (self : Mat) (m : cv.Mat)
    (hg : self.colorspace = GRAY) (h3 : m.type = CV_8UC3) :
    (m.rows ≠ 0 ∧ m.cols ≠ 0 →
      self.operator_assign m = (.error .assert_single_channel, self) ∧
      Failure.assert_single_channel.kind = .ColorspaceMismatch) ∧
    ((m.rows = 0 ∨ m.cols = 0) → (self.rows = 0 ∨ self.cols = 0) →
      self.operator_assign m = (.ok (), { toMat := m, colorspace := BGR })) := by
  obtain ⟨b, cs⟩ := self
  simp only at hg
  subst hg
  constructor
  · rintro ⟨hr, hc⟩
    simp [Mat.operator_assign, Mat.getColorspace, checkColorspaceMatch, hr, hc, h3, CV_8UC1,
      CV_8UC3, Failure.kind]
  · intro hm hs
    simp only at hs
    rcases hm with hm | hm <;> rcases hs with hs | hs <;>
      simp [Mat.operator_assign, Mat.getColorspace, checkColorspaceMatch, hm, hs, h3, CV_8UC1,
        CV_8UC3, Outcome.andThen, Mat.setColorspace]

/-- C4 as amended, at an empty `GRAY` image: the 2x2 `CV_8UC3` buffer is
rejected, the empty `CV_8UC3` buffer re-tags the image `BGR`. -/
theorem operator_assign_gray_then_color_witness :
    ({ Mat.new with colorspace := GRAY } : Mat).operator_assign
        { rows := 2, cols := 2, type := CV_8UC3, data := some 0 } =
      (.error .assert_single_channel, { Mat.new with colorspace := GRAY }) ∧
    ({ Mat.new with colorspace := GRAY } : Mat).operator_assign
        { rows := 0, cols := 0, type := CV_8UC3, data := none } =
      (.ok (), { rows := 0, cols := 0, type := CV_8UC3, data := none, colorspace := BGR }) :=
  ⟨((operator_assign_gray_then_color { Mat.new with colorspace := GRAY }
      { rows := 2, cols := 2, type := CV_8UC3, data := some 0 } rfl rfl).1
        ⟨by decide, by decide⟩).1,
   (operator_assign_gray_then_color { Mat.new with colorspace := GRAY }
      { rows := 0, cols := 0, type := CV_8UC3, data := none } rfl rfl).2
        (Or.inl rfl) (Or.inl rfl)⟩

/-- C5: assigning a 3-channel (`CV_8UC3`) buffer with `operator=(const cv::Mat&)`
to an image tagged `BGR`, `RGB` or `HSV` succeeds, the image holds the new
buffer and its tag is the one it had. -/
theorem operator_assign_keeps_color_tag (self : Mat) (m : cv.Mat)
    (ht : self.colorspace = BGR ∨ self.colorspace = RGB ∨ self.colorspace = HSV)
    (h3 : m.type = CV_8UC3) :
    self.operator_assign m = (.ok (), { toMat := m, colorspace := self.colorspace }) ∧
    (self.operator_assign m).2.getColorspace = self.colorspace := by
  obtain ⟨b, cs⟩ := self
  simp only at ht
  have key : Mat.operator_assign { toMat := b, colorspace := cs } m =
      (.ok (), { toMat := m, colorspace := cs }) := by
    rcases ht with ht | ht | ht <;> subst ht <;>
      by_cases hr : m.rows = 0 <;> by_cases hc : m.cols = 0 <;>
      simp [Mat.operator_assign, Mat.getColorspace, checkColorspaceMatch, hr, hc, h3, CV_8UC1,
        CV_8UC3, Outcome.andThen]
  rw [key]
  exact ⟨rfl, rfl⟩

/-- C5 at the images of the test `is_colorspace_persistent`: a 2x2 3-channel
image tagged `RGB` is still tagged `RGB` after another 2x2 3-channel buffer is
assigned to it. -/
theorem operator_assign_keeps_color_tag_witness :
    ((image 2 2 CV_8UC3 RGB).operator_assign
        { rows := 2, cols := 2, type := CV_8UC3, data := some 1 }).2.getColorspace = RGB :=
  (operator_assign_keeps_color_tag (image 2 2 CV_8UC3 RGB)
    { rows := 2, cols := 2, type := CV_8UC3, data := some 1 } (Or.inr (Or.inl rfl)) rfl).2

end cspace

namespace cv

theorem cvtColor_dst_type (prim : Primitives) (h : Heap) (src dst : Mat) (code : ColorConversionCode) :
    (cvtColor prim h src dst code).2.type = dstType code := by
  unfold cvtColor
  split
  · rename_i hc
    exact hc.2.2.1
  · rfl

theorem cvtColor_dst_read (prim : Primitives) (h : Heap) (src dst : Mat) (code : ColorConversionCode) :
    (cvtColor prim h src dst code).1.read (cvtColor prim h src dst code).2 =
      prim code (h.read src) := by
  unfold cvtColor
  split
  · rename_i hc
    obtain ⟨p, hp⟩ := Option.isSome_iff_exists.1 hc.2.2.2
    simp [Heap.write, Heap.read, hp]
  · simp [Heap.alloc, Heap.read]

end cv

namespace cspace

open cv (CV_8UC1 CV_8UC3)
open colorspace_t

/-! ## Conversions -/

theorem cvtColor_type (prim : cv.Primitives) (h : cv.Heap) (src : cv.Mat) (out : Mat)
    (code : cv.ColorConversionCode) :
    (cvtColor prim h src out code).2.type = cv.dstType code :=
  cv.cvtColor_dst_type prim h src out.toMat code

theorem cvtColor_colorspace (prim : cv.Primitives) (h : cv.Heap) (src : cv.Mat) (out : Mat)
    (code : cv.ColorConversionCode) :
    (cvtColor prim h src out code).2.colorspace = out.colorspace := rfl

theorem cvtColor_read (prim : cv.Primitives) (h : cv.Heap) (src : cv.Mat) (out : Mat)
    (code : cv.ColorConversionCode) :
    (cvtColor prim h src out code).1.read (cvtColor prim h src out code).2.toMat =
      prim code (h.read src) :=
  cv.cvtColor_dst_read prim h src out.toMat code

/-- The receiver `out` of the conversions once `new Mat` has been tagged `c`. -/
theorem new_setColorspace (c : colorspace_t) :
    Mat.new.setColorspace c = (.ok (), { Mat.new with colorspace := c }) :=
  setColorspace_of_accepts Mat.new c (Or.inl rfl)

theorem toGray_BGR (prim : cv.Primitives) (h : cv.Heap) (x : Mat) (hx : x.colorspace = BGR) :
    x.toGray prim h =
      .ok (cvtColor prim h x.toMat { Mat.new with colorspace := GRAY } .COLOR_BGR2GRAY) := by
  simp [Mat.toGray, new_setColorspace, hx]

theorem toGray_RGB (prim : cv.Primitives) (h : cv.Heap) (x : Mat) (hx : x.colorspace = RGB) :
    x.toGray prim h =
      .ok (cvtColor prim h x.toMat { Mat.new with colorspace := GRAY } .COLOR_RGB2GRAY) := by
  simp [Mat.toGray, new_setColorspace, hx]

/-- On an `HSV` image `toGray` ends with `BGR2GRAY` read from the source itself. -/
theorem toGray_HSV (prim : cv.Primitives) (h : cv.Heap) (x : Mat) (hx : x.colorspace = HSV) :
    x.toGray prim h =
      .ok (cvtColor prim
        (cvtColor prim h x.toMat { Mat.new with colorspace := GRAY } .COLOR_HSV2BGR).1 x.toMat
        (cvtColor prim h x.toMat { Mat.new with colorspace := GRAY } .COLOR_HSV2BGR).2
        .COLOR_BGR2GRAY) := by
  simp [Mat.toGray, new_setColorspace, hx]

theorem toGray_GRAY (prim : cv.Primitives) (h : cv.Heap) (x : Mat)
    (hx : x.colorspace = GRAY ∨ x.colorspace = WHITE_ON_BLACK) (ha : accepts x.toMat GRAY) :
    x.toGray prim h = .ok (h, { x with colorspace := GRAY }) := by
  rcases hx with hx | hx <;>
    simp [Mat.toGray, new_setColorspace, hx, Mat.copy_assign, setColorspace_of_accepts x GRAY ha]

theorem toGray_UNKNOWN (prim : cv.Primitives) (h : cv.Heap) (x : Mat)
    (hx : x.colorspace = UNKNOWN) :
    x.toGray prim h = .error .colorspace_not_implemented := by
  simp [Mat.toGray, new_setColorspace, hx]

end cspace

namespace cspace

open cv (CV_8UC1 CV_8UC3)
open colorspace_t

theorem toHSV_HSV (prim : cv.Primitives) (h : cv.Heap) (x : Mat) (hx : x.colorspace = HSV) :
    x.toHSV prim h = .ok (h, x) := by
  simp [Mat.toHSV, new_setColorspace, hx, Mat.copy_assign]

theorem toHSV_BGR (prim : cv.Primitives) (h : cv.Heap) (x : Mat) (hx : x.colorspace = BGR) :
    x.toHSV prim h =
      .ok (cvtColor prim h x.toMat { Mat.new with colorspace := HSV } .COLOR_BGR2HSV) := by
  simp [Mat.toHSV, new_setColorspace, hx]

theorem toHSV_RGB (prim : cv.Primitives) (h : cv.Heap) (x : Mat) (hx : x.colorspace = RGB) :
    x.toHSV prim h =
      .ok (cvtColor prim h x.toMat { Mat.new with colorspace := HSV } .COLOR_RGB2HSV) := by
  simp [Mat.toHSV, new_setColorspace, hx]

theorem toHSV_GRAY (prim : cv.Primitives) (h : cv.Heap) (x : Mat)
    (hx : x.colorspace = GRAY ∨ x.colorspace = WHITE_ON_BLACK) :
    x.toHSV prim h =
      .ok (cvtColor prim
        (cvtColor prim h x.toMat { Mat.new with colorspace := HSV } .COLOR_GRAY2BGR).1
        (cvtColor prim h x.toMat { Mat.new with colorspace := HSV } .COLOR_GRAY2BGR).2.toMat
        (cvtColor prim h x.toMat { Mat.new with colorspace := HSV } .COLOR_GRAY2BGR).2
        .COLOR_BGR2HSV) := by
  rcases hx with hx | hx <;> simp [Mat.toHSV, new_setColorspace, hx]

theorem toHSV_UNKNOWN (prim : cv.Primitives) (h : cv.Heap) (x : Mat)
    (hx : x.colorspace = UNKNOWN) :
    x.toHSV prim h = .error .colorspace_not_implemented := by
  simp [Mat.toHSV, new_setColorspace, hx]

/-- On a `BGR` image `toBGR` runs `HSV2BGR` from the source into the copy of the source. -/
theorem toBGR_BGR (prim : cv.Primitives) (h : cv.Heap) (x : Mat) (hx : x.colorspace = BGR) :
    x.toBGR prim h = .ok (cvtColor prim h x.toMat x .COLOR_HSV2BGR) := by
  simp [Mat.toBGR, new_setColorspace, hx, Mat.copy_assign]

theorem toBGR_HSV (prim : cv.Primitives) (h : cv.Heap) (x : Mat) (hx : x.colorspace = HSV) :
    x.toBGR prim h =
      .ok (cvtColor prim h x.toMat { Mat.new with colorspace := BGR } .COLOR_HSV2BGR) := by
  simp [Mat.toBGR, new_setColorspace, hx]

theorem toBGR_RGB (prim : cv.Primitives) (h : cv.Heap) (x : Mat) (hx : x.colorspace = RGB) :
    x.toBGR prim h =
      .ok (cvtColor prim h x.toMat { Mat.new with colorspace := BGR } .COLOR_RGB2BGR) := by
  simp [Mat.toBGR, new_setColorspace, hx]

theorem toBGR_GRAY (prim : cv.Primitives) (h : cv.Heap) (x : Mat)
    (hx : x.colorspace = GRAY ∨ x.colorspace = WHITE_ON_BLACK) :
    x.toBGR prim h =
      .ok (cvtColor prim h x.toMat { Mat.new with colorspace := BGR } .COLOR_GRAY2BGR) := by
  rcases hx with hx | hx <;> simp [Mat.toBGR, new_setColorspace, hx]

theorem toBGR_UNKNOWN (prim : cv.Primitives) (h : cv.Heap) (x : Mat)
    (hx : x.colorspace = UNKNOWN) :
    x.toBGR prim h = .error .colorspace_not_implemented := by
  simp [Mat.toBGR, new_setColorspace, hx]

/-! ## What a successful call returns -/

theorem accepts_of_type_3 (m : cv.Mat) (c : colorspace_t)
    (hc : c = BGR ∨ c = RGB ∨ c = HSV) (ht : m.type = CV_8UC3) : accepts m c :=
  Or.inr (Or.inr (Or.inr (Or.inl ⟨hc, ht⟩)))

theorem accepts_of_type_1 (m : cv.Mat) (c : colorspace_t)
    (hc : c = GRAY ∨ c = WHITE_ON_BLACK) (ht : m.type = CV_8UC1) : accepts m c :=
  Or.inr (Or.inr (Or.inr (Or.inr ⟨hc, ht⟩)))

theorem setColorspace_ok (m m1 : Mat) (c : colorspace_t)
    (h : m.setColorspace c = (.ok (), m1)) :
    m1 = { m with colorspace := c } ∧ accepts m.toMat c := by
  have ha : accepts m.toMat c := by
    by_contra hn
    obtain ⟨f, hf, -⟩ := setColorspace_of_not_accepts m c hn
    rw [hf] at h
    cases h
  rw [setColorspace_of_accepts m c ha] at h
  exact ⟨(Prod.mk.inj h).2.symm, ha⟩

theorem toGray_ok (prim : cv.Primitives) (h h1 : cv.Heap) (x out : Mat)
    (hr : x.toGray prim h = .ok (h1, out)) :
    out.colorspace = GRAY ∧ accepts out.toMat GRAY := by
  cases hx : x.colorspace
  · rw [toGray_UNKNOWN prim h x hx] at hr; cases hr
  · rw [toGray_BGR prim h x hx] at hr
    cases hr
    exact ⟨rfl, accepts_of_type_1 _ _ (Or.inl rfl) (cvtColor_type ..)⟩
  · rw [toGray_RGB prim h x hx] at hr
    cases hr
    exact ⟨rfl, accepts_of_type_1 _ _ (Or.inl rfl) (cvtColor_type ..)⟩
  · rw [toGray_HSV prim h x hx] at hr
    cases hr
    exact ⟨rfl, accepts_of_type_1 _ _ (Or.inl rfl) (cvtColor_type ..)⟩
  all_goals
    by_cases ha : accepts x.toMat GRAY
    · rw [toGray_GRAY prim h x (by simp [hx]) ha] at hr
      cases hr
      exact ⟨rfl, ha⟩
    · obtain ⟨f, hf, -⟩ := setColorspace_of_not_accepts x GRAY ha
      simp [Mat.toGray, new_setColorspace, hx, Mat.copy_assign, hf] at hr

theorem toHSV_ok (prim : cv.Primitives) (h h1 : cv.Heap) (x out : Mat)
    (hr : x.toHSV prim h = .ok (h1, out)) (ha : accepts x.toMat x.colorspace) :
    out.colorspace = HSV ∧ accepts out.toMat HSV := by
  cases hx : x.colorspace
  · rw [toHSV_UNKNOWN prim h x hx] at hr; cases hr
  · rw [toHSV_BGR prim h x hx] at hr
    cases hr
    exact ⟨rfl, accepts_of_type_3 _ _ (Or.inr (Or.inr rfl)) (cvtColor_type ..)⟩
  · rw [toHSV_RGB prim h x hx] at hr
    cases hr
    exact ⟨rfl, accepts_of_type_3 _ _ (Or.inr (Or.inr rfl)) (cvtColor_type ..)⟩
  · rw [toHSV_HSV prim h x hx] at hr
    cases hr
    rw [hx] at ha
    exact ⟨hx, ha⟩
  all_goals
    rw [toHSV_GRAY prim h x (by simp [hx])] at hr
    cases hr
    exact ⟨rfl, accepts_of_type_3 _ _ (Or.inr (Or.inr rfl)) (cvtColor_type ..)⟩

theorem toBGR_ok (prim : cv.Primitives) (h h1 : cv.Heap) (x out : Mat)
    (hr : x.toBGR prim h = .ok (h1, out)) :
    out.colorspace = BGR ∧ out.type = CV_8UC3 := by
  cases hx : x.colorspace
  · rw [toBGR_UNKNOWN prim h x hx] at hr; cases hr
  · rw [toBGR_BGR prim h x hx] at hr
    cases hr
    exact ⟨hx, cvtColor_type ..⟩
  · rw [toBGR_RGB prim h x hx] at hr
    cases hr
    exact ⟨rfl, cvtColor_type ..⟩
  · rw [toBGR_HSV prim h x hx] at hr
    cases hr
    exact ⟨rfl, cvtColor_type ..⟩
  all_goals
    rw [toBGR_GRAY prim h x (by simp [hx])] at hr
    cases hr
    exact ⟨rfl, cvtColor_type ..⟩

/-- A successful `to3ChannelGray(c)` is a gray image (from `toGray`, or the
`GRAY` / `WHITE_ON_BLACK` source re-tagged) handed to `toBGR` or `toHSV`. -/
theorem to3ChannelGray_ok (prim : cv.Primitives) (h h2 : cv.Heap) (x out : Mat)
    (c : colorspace_t) (hr : x.to3ChannelGray prim h c = .ok (h2, out)) :
    ∃ (h1 : cv.Heap) (g : Mat), g.colorspace = GRAY ∧ accepts g.toMat GRAY ∧
      (((c = BGR ∨ c = RGB) ∧ g.toBGR prim h1 = .ok (h2, out)) ∨
        (c = HSV ∧ g.toHSV prim h1 = .ok (h2, out))) := by
  unfold Mat.to3ChannelGray at hr
  split at hr
  · cases hr
  simp only [new_setColorspace, Mat.copy_assign] at hr
  split at hr
  · cases hr
  rename_i h1 g hfirst
  have hg : g.colorspace = GRAY ∧ accepts g.toMat GRAY := by
    split at hfirst
    · split at hfirst
      · cases hfirst
      · rename_i out1 hset
        cases hfirst
        obtain ⟨he, ha⟩ := setColorspace_ok _ _ _ hset
        subst he
        exact ⟨rfl, ha⟩
    · split at hfirst
      · cases hfirst
      · rename_i out1 hset
        cases hfirst
        obtain ⟨he, ha⟩ := setColorspace_ok _ _ _ hset
        subst he
        exact ⟨rfl, ha⟩
    · split at hfirst
      · cases hfirst
      · rename_i hg1 g1 htg
        cases hfirst
        exact toGray_ok prim h _ x _ htg
  refine ⟨h1, g, hg.1, hg.2, ?_⟩
  split at hr
  · left
    split at hr
    · cases hr
    · rename_i hb b htb
      cases hr
      exact ⟨by simp, htb⟩
  · left
    split at hr
    · cases hr
    · rename_i hb b htb
      cases hr
      exact ⟨by simp, htb⟩
  · right
    split at hr
    · cases hr
    · rename_i hb b htb
      cases hr
      exact ⟨rfl, htb⟩
  · cases hr

end cspace

namespace cspace

open cv (CV_8UC1 CV_8UC3)
open colorspace_t

theorem highlightOverBg_ok (prim : cv.Primitives) (h h1 : cv.Heap) (bg hl out : Mat)
    (hr : highlightOverBg prim h bg hl = .ok (h1, out)) :
    out.colorspace = BGR ∧ out.type = CV_8UC3 := by
  unfold highlightOverBg at hr
  simp only [new_setColorspace, Mat.copy_assign] at hr
  split at hr
  · cases hr
  · exact toBGR_ok prim _ h1 _ out hr

theorem highlightOverBg_list_ok (prim : cv.Primitives) (h h1 : cv.Heap) (bg out : Mat)
    (hls : List Mat) (hr : highlightOverBg_list prim h bg hls = .ok (h1, out)) :
    out.colorspace = BGR ∧ out.type = CV_8UC3 := by
  unfold highlightOverBg_list at hr
  simp only [new_setColorspace, Mat.copy_assign] at hr
  split at hr
  · cases hr
  · split at hr
    · cases hr
    · split at hr
      · cases hr
      · exact toBGR_ok prim _ h1 _ out hr

theorem highlightOverBg_vector_ok (prim : cv.Primitives) (h h1 : cv.Heap) (bg out : Mat)
    (hls : List Mat) (hr : highlightOverBg_vector prim h bg hls = .ok (h1, out)) :
    out.colorspace = BGR ∧ out.type = CV_8UC3 := by
  unfold highlightOverBg_vector at hr
  simp only [new_setColorspace, Mat.copy_assign] at hr
  split at hr
  · cases hr
  · split at hr
    · cases hr
    · split at hr
      · cases hr
      · exact toBGR_ok prim _ h1 _ out hr

/-- After a successful `operator=(const cv::Mat&)` the image holds the incoming
buffer under a tag that accepts it. -/
theorem operator_assign_ok (self m1 : Mat) (m : cv.Mat)
    (hr : self.operator_assign m = (.ok (), m1)) :
    m1.toMat = m ∧ accepts m m1.colorspace := by
  unfold Mat.operator_assign at hr
  cases hc : checkColorspaceMatch m self.getColorspace with
  | error f => rw [hc] at hr; cases hr
  | ok u =>
    have ha : accepts m self.colorspace := (checkColorspaceMatch_ok_iff m _).1 hc
    rw [hc] at hr
    simp only at hr
    by_cases h1 : m.type = CV_8UC1
    · have h3 : ¬ m.type = CV_8UC3 := by rw [h1]; decide
      simp only [h1, h3, if_true, if_false] at hr
      by_cases hg : accepts self.toMat GRAY
      · rw [setColorspace_of_accepts self GRAY hg] at hr
        simp only [Outcome.andThen] at hr
        cases hr
        exact ⟨rfl, accepts_of_type_1 _ _ (Or.inl rfl) h1⟩
      · obtain ⟨f, hf, -⟩ := setColorspace_of_not_accepts self GRAY hg
        rw [hf] at hr
        simp [Outcome.andThen] at hr
    · simp only [h1, if_false] at hr
      by_cases h3 : m.type = CV_8UC3
      · simp only [h3, if_true, Outcome.andThen] at hr
        by_cases hcs : self.colorspace = GRAY
        · simp only [hcs, if_true] at hr
          by_cases hb : accepts self.toMat BGR
          · rw [setColorspace_of_accepts self BGR hb] at hr
            cases hr
            exact ⟨rfl, accepts_of_type_3 _ _ (Or.inl rfl) h3⟩
          · obtain ⟨f, hf, -⟩ := setColorspace_of_not_accepts self BGR hb
            rw [hf] at hr
            simp at hr
        · simp only [hcs, if_false] at hr
          cases hr
          exact ⟨rfl, ha⟩
      · simp only [h3, if_false, Outcome.andThen] at hr
        cases hr
        exact ⟨rfl, ha⟩

theorem consistent_of_accepts (m : Mat) (h : accepts m.toMat m.colorspace) : consistent m := by
  unfold consistent
  rcases h with h | h | h | ⟨hc, ht⟩ | ⟨hc, ht⟩
  · exact Or.inl h
  · exact Or.inr (Or.inl h)
  · exact Or.inr (Or.inr (Or.inl h))
  · right; right; right
    rcases hc with hc | hc | hc <;> rw [hc] <;>
      simp [cv.Mat.channels, cv.CV_MAT_CN, ht, CV_8UC3, requiredChannels]
  · right; right; right
    rcases hc with hc | hc <;> rw [hc] <;>
      simp [cv.Mat.channels, cv.CV_MAT_CN, ht, CV_8UC1, requiredChannels]

/-- C6: every image obtained from the constructors by successful calls of
`setColorspace`, `operator=(const cv::Mat&)`, `toGray`, `toHSV`, `toBGR`,
`to3ChannelGray` and `highlightOverBg` has an empty buffer, or the tag
`UNKNOWN`, or the channel count its tag requires (and in fact the pixel type
`CV_8UC3` or `CV_8UC1` its tag requires). -/
theorem reachable_consistent (prim : cv.Primitives) (m : Mat) (hm : Reachable prim m) :
    consistent m ∧ accepts m.toMat m.colorspace := by
  suffices hacc : accepts m.toMat m.colorspace from ⟨consistent_of_accepts m hacc, hacc⟩
  induction hm with
  | new => exact Or.inl rfl
  | construct b => exact Or.inr (Or.inr (Or.inl rfl))
  | setColorspace c _ hr _ =>
    obtain ⟨he, ha⟩ := setColorspace_ok _ _ _ hr
    subst he
    exact ha
  | operator_assign b _ hr _ =>
    obtain ⟨he, ha⟩ := operator_assign_ok _ _ _ hr
    rw [he]
    exact ha
  | toGray h h1 _ hr _ =>
    obtain ⟨ht, ha⟩ := toGray_ok prim h h1 _ _ hr
    rw [ht]
    exact ha
  | toHSV h h1 _ hr ih =>
    obtain ⟨ht, ha⟩ := toHSV_ok prim h h1 _ _ hr ih
    rw [ht]
    exact ha
  | toBGR h h1 _ hr _ =>
    obtain ⟨ht, ha⟩ := toBGR_ok prim h h1 _ _ hr
    rw [ht]
    exact accepts_of_type_3 _ _ (Or.inl rfl) ha
  | to3ChannelGray h h1 c _ hr _ =>
    obtain ⟨h0, g, hg, hga, hcase⟩ := to3ChannelGray_ok prim h h1 _ _ c hr
    rcases hcase with ⟨-, hb⟩ | ⟨-, hb⟩
    · obtain ⟨ht, ha⟩ := toBGR_ok prim h0 h1 _ _ hb
      rw [ht]
      exact accepts_of_type_3 _ _ (Or.inl rfl) ha
    · obtain ⟨ht, ha⟩ := toHSV_ok prim h0 h1 _ _ hb (by rw [hg]; exact hga)
      rw [ht]
      exact ha
  | highlightOverBg h h1 hl _ hr _ =>
    obtain ⟨ht, ha⟩ := highlightOverBg_ok prim h h1 _ hl _ hr
    rw [ht]
    exact accepts_of_type_3 _ _ (Or.inl rfl) ha
  | highlightOverBg_list h h1 hls _ hr _ =>
    obtain ⟨ht, ha⟩ := highlightOverBg_list_ok prim h h1 _ _ hls hr
    rw [ht]
    exact accepts_of_type_3 _ _ (Or.inl rfl) ha
  | highlightOverBg_vector h h1 hls _ hr _ =>
    obtain ⟨ht, ha⟩ := highlightOverBg_vector_ok prim h h1 _ _ hls hr
    rw [ht]
    exact accepts_of_type_3 _ _ (Or.inl rfl) ha

/-- C6 at the image of the test `is_colorspace_persistent`: a new image tagged
`RGB` and then assigned a 2x2 `CV_8UC3` buffer is reachable, so consistent. -/
theorem reachable_consistent_witness :
    Reachable samplePrimitives (image 2 2 CV_8UC3 RGB) ∧ consistent (image 2 2 CV_8UC3 RGB) :=
  have h0 : Reachable samplePrimitives { Mat.new with colorspace := RGB } :=
    Reachable.setColorspace RGB Reachable.new (by decide)
  have hr : Reachable samplePrimitives (image 2 2 CV_8UC3 RGB) :=
    Reachable.operator_assign { rows := 2, cols := 2, type := CV_8UC3, data := some 0 } h0
      (by decide)
  ⟨hr, (reachable_consistent samplePrimitives _ hr).1⟩

end cspace

namespace cspace

open cv (CV_8UC1 CV_8UC3)
open colorspace_t

theorem accepts_GRAY_of_typeMatches (x : Mat)
    (hx : x.colorspace = GRAY ∨ x.colorspace = WHITE_ON_BLACK) (ht : typeMatches x) :
    accepts x.toMat GRAY ∧ x.type = CV_8UC1 := by
  have h1 : x.type = CV_8UC1 := by
    unfold typeMatches at ht
    rcases hx with hx | hx <;> rw [hx] at ht <;> simpa [requiredType] using ht
  exact ⟨accepts_of_type_1 _ _ (Or.inl rfl) h1, h1⟩

theorem toGray_succeeds (prim : cv.Primitives) (h : cv.Heap) (x : Mat)
    (hs : supported x.colorspace) (ht : typeMatches x) :
    ∃ h1 out, x.toGray prim h = .ok (h1, out) ∧ out.colorspace = GRAY ∧
      out.type = CV_8UC1 := by
  cases hx : x.colorspace
  · exact absurd hx hs
  · exact ⟨_, _, toGray_BGR prim h x hx, rfl, cvtColor_type ..⟩
  · exact ⟨_, _, toGray_RGB prim h x hx, rfl, cvtColor_type ..⟩
  · exact ⟨_, _, toGray_HSV prim h x hx, rfl, cvtColor_type ..⟩
  all_goals
    obtain ⟨ha, h1⟩ := accepts_GRAY_of_typeMatches x (by simp [hx]) ht
    exact ⟨_, _, toGray_GRAY prim h x (by simp [hx]) ha, rfl, h1⟩

theorem toHSV_succeeds (prim : cv.Primitives) (h : cv.Heap) (x : Mat)
    (hs : supported x.colorspace) :
    ∃ h1 out, x.toHSV prim h = .ok (h1, out) ∧ out.colorspace = HSV := by
  cases hx : x.colorspace
  · exact absurd hx hs
  · exact ⟨_, _, toHSV_BGR prim h x hx, rfl⟩
  · exact ⟨_, _, toHSV_RGB prim h x hx, rfl⟩
  · exact ⟨_, _, toHSV_HSV prim h x hx, hx⟩
  · exact ⟨_, _, toHSV_GRAY prim h x (Or.inl hx), rfl⟩
  · exact ⟨_, _, toHSV_GRAY prim h x (Or.inr hx), rfl⟩

theorem toBGR_succeeds (prim : cv.Primitives) (h : cv.Heap) (x : Mat)
    (hs : supported x.colorspace) :
    ∃ h1 out, x.toBGR prim h = .ok (h1, out) ∧ out.colorspace = BGR := by
  cases hx : x.colorspace
  · exact absurd hx hs
  · exact ⟨_, _, toBGR_BGR prim h x hx, hx⟩
  · exact ⟨_, _, toBGR_RGB prim h x hx, rfl⟩
  · exact ⟨_, _, toBGR_HSV prim h x hx, rfl⟩
  · exact ⟨_, _, toBGR_GRAY prim h x (Or.inl hx), rfl⟩
  · exact ⟨_, _, toBGR_GRAY prim h x (Or.inr hx), rfl⟩

/-- C7: for an image with one of the five supported tags whose buffer has the
pixel type its tag requires, `toGray` returns an image tagged `GRAY` with a
1-channel (`CV_8UC1`) buffer, `toHSV` returns an image tagged `HSV`, `toBGR`
returns an image tagged `BGR`; and for an image tagged `BGR`, `toBGR` of its
`toHSV` is tagged `BGR`. -/
theorem conversions_tag (prim : cv.Primitives) (h : cv.Heap) (x : Mat)
    (hs : supported x.colorspace) (ht : typeMatches x) :
    (∃ h1 out, x.toGray prim h = .ok (h1, out) ∧ out.colorspace = GRAY ∧
      out.type = CV_8UC1 ∧ out.toMat.channels = 1) ∧
    (∃ h1 out, x.toHSV prim h = .ok (h1, out) ∧ out.colorspace = HSV) ∧
    (∃ h1 out, x.toBGR prim h = .ok (h1, out) ∧ out.colorspace = BGR) ∧
    (x.colorspace = BGR →
      ∃ h1 hsv h2 out, x.toHSV prim h = .ok (h1, hsv) ∧ hsv.colorspace = HSV ∧
        hsv.toBGR prim h1 = .ok (h2, out) ∧ out.colorspace = BGR) := by
  refine ⟨?_, toHSV_succeeds prim h x hs, toBGR_succeeds prim h x hs, ?_⟩
  · obtain ⟨h1, out, hr, hc, h1t⟩ := toGray_succeeds prim h x hs ht
    exact ⟨h1, out, hr, hc, h1t, by simp [cv.Mat.channels, cv.CV_MAT_CN, h1t, CV_8UC1]⟩
  · intro _
    obtain ⟨h1, hsv, hr, hc⟩ := toHSV_succeeds prim h x hs
    obtain ⟨h2, out, hr2, hc2⟩ := toBGR_succeeds prim h1 hsv (by rw [hc]; exact HSV.noConfusion)
    exact ⟨h1, hsv, h2, out, hr, hc, hr2, hc2⟩

/-- C7 at the image of the test `hsv_conversion` (2x2, `CV_8UC3`, tagged `HSV`,
every pixel 88, 72, 200) and at a `BGR` image for the round trip. -/
theorem conversions_tag_witness :
    (∃ h1 out, (image 2 2 CV_8UC3 HSV).toGray samplePrimitives
        (heapWith [88, 72, 200, 88, 72, 200, 88, 72, 200, 88, 72, 200]) = .ok (h1, out) ∧
      out.colorspace = GRAY ∧ out.type = CV_8UC1 ∧ out.toMat.channels = 1) ∧
    (∃ h1 hsv h2 out, (image 2 2 CV_8UC3 BGR).toHSV samplePrimitives
        (heapWith [0, 0, 255, 0, 0, 255, 0, 0, 255, 0, 0, 255]) = .ok (h1, hsv) ∧
      hsv.colorspace = HSV ∧ hsv.toBGR samplePrimitives h1 = .ok (h2, out) ∧
      out.colorspace = BGR) :=
  ⟨(conversions_tag samplePrimitives _ (image 2 2 CV_8UC3 HSV) (by unfold supported; decide)
      (Or.inr rfl)).1,
   (conversions_tag samplePrimitives _ (image 2 2 CV_8UC3 BGR) (by unfold supported; decide)
      (Or.inr rfl)).2.2.2 rfl⟩

/-- A conversion into a header without data leaves every allocated buffer as it was. -/
theorem read_cvtColor_new (prim : cv.Primitives) (h : cv.Heap) (src : cv.Mat) (out m : Mat)
    (code : cv.ColorConversionCode) (ho : out.data = none) (hm : h.allocated m.toMat) :
    (cvtColor prim h src out code).1.read m.toMat = h.read m.toMat := by
  unfold cvtColor cv.cvtColor
  simp only [ho, Option.isSome_none, Bool.false_eq_true, and_false, if_false]
  unfold cv.Heap.read cv.Heap.alloc
  cases hd : m.data with
  | none => rfl
  | some p =>
    have hp : p ≠ h.next := Nat.ne_of_lt (hm p hd)
    simp [Function.update_noteq hp]

/-- What `toGray` does on an `HSV` image, for any primitives: the pixels
returned are `BGR2GRAY` of the source pixels; the `HSV2BGR` result is dropped. -/
theorem toGray_HSV_read (prim : cv.Primitives) (h : cv.Heap) (x : Mat)
    (hx : x.colorspace = HSV) (hm : h.allocated x.toMat) :
    ∃ h1 out, x.toGray prim h = .ok (h1, out) ∧
      h1.read out.toMat = prim .COLOR_BGR2GRAY (h.read x.toMat) := by
  refine ⟨_, _, toGray_HSV prim h x hx, ?_⟩
  refine (cvtColor_read prim _ x.toMat _ .COLOR_BGR2GRAY).trans ?_
  rw [read_cvtColor_new prim h x.toMat _ x .COLOR_HSV2BGR rfl hm]

/-- C8, evaluated where it fails: the 1x1 `HSV` image with the pixel
(H, S, V) = (0, 0, 255), which is white. `toGray` returns the pixel 76, the
`BGR2GRAY` value of the bytes (0, 0, 255) read as blue, green, red; converting
to `BGR` first gives (255, 255, 255), whose gray value is 255. -/
theorem toGray_HSV_drops_proxy :
    (∃ h1 out, (image 1 1 CV_8UC3 HSV).toGray samplePrimitives (heapWith [0, 0, 255]) =
        .ok (h1, out) ∧ h1.read out.toMat = [76]) ∧
    samplePrimitives .COLOR_HSV2BGR [0, 0, 255] = [255, 255, 255] ∧
    samplePrimitives .COLOR_BGR2GRAY (samplePrimitives .COLOR_HSV2BGR [0, 0, 255]) = [255] := by
  refine ⟨?_, by decide, by decide⟩
  obtain ⟨h1, out, hr, hread⟩ := toGray_HSV_read samplePrimitives (heapWith [0, 0, 255])
    (image 1 1 CV_8UC3 HSV) rfl (by intro p hp; cases hp; decide)
  exact ⟨h1, out, hr, hread.trans (by decide)⟩

/-- C9: routing of every edge but `HSV` to gray, for an image whose tag accepts
its buffer. `toGray` returns `BGR2GRAY` of the source pixels for a `BGR`
source, `RGB2GRAY` for `RGB`, the source pixels themselves for `GRAY` and
`WHITE_ON_BLACK`; `toHSV` returns `BGR2HSV` for `BGR`, `RGB2HSV` for `RGB`,
`BGR2HSV` of `GRAY2BGR` for `GRAY` and `WHITE_ON_BLACK`; `toBGR` returns
`HSV2BGR` for `HSV`, `RGB2BGR` for `RGB`, `GRAY2BGR` for `GRAY` and
`WHITE_ON_BLACK`. -/
theorem routing_table (prim : cv.Primitives) (h : cv.Heap) (x : Mat)
    (ha : accepts x.toMat x.colorspace) :
    (x.colorspace = BGR → ∃ h1 out, x.toGray prim h = .ok (h1, out) ∧
      h1.read out.toMat = prim .COLOR_BGR2GRAY (h.read x.toMat)) ∧
    (x.colorspace = RGB → ∃ h1 out, x.toGray prim h = .ok (h1, out) ∧
      h1.read out.toMat = prim .COLOR_RGB2GRAY (h.read x.toMat)) ∧
    (x.colorspace = GRAY ∨ x.colorspace = WHITE_ON_BLACK →
      ∃ h1 out, x.toGray prim h = .ok (h1, out) ∧ h1.read out.toMat = h.read x.toMat) ∧
    (x.colorspace = BGR → ∃ h1 out, x.toHSV prim h = .ok (h1, out) ∧
      h1.read out.toMat = prim .COLOR_BGR2HSV (h.read x.toMat)) ∧
    (x.colorspace = RGB → ∃ h1 out, x.toHSV prim h = .ok (h1, out) ∧
      h1.read out.toMat = prim .COLOR_RGB2HSV (h.read x.toMat)) ∧
    (x.colorspace = GRAY ∨ x.colorspace = WHITE_ON_BLACK →
      ∃ h1 out, x.toHSV prim h = .ok (h1, out) ∧
        h1.read out.toMat = prim .COLOR_BGR2HSV (prim .COLOR_GRAY2BGR (h.read x.toMat))) ∧
    (x.colorspace = HSV → ∃ h1 out, x.toBGR prim h = .ok (h1, out) ∧
      h1.read out.toMat = prim .COLOR_HSV2BGR (h.read x.toMat)) ∧
    (x.colorspace = RGB → ∃ h1 out, x.toBGR prim h = .ok (h1, out) ∧
      h1.read out.toMat = prim .COLOR_RGB2BGR (h.read x.toMat)) ∧
    (x.colorspace = GRAY ∨ x.colorspace = WHITE_ON_BLACK →
      ∃ h1 out, x.toBGR prim h = .ok (h1, out) ∧
        h1.read out.toMat = prim .COLOR_GRAY2BGR (h.read x.toMat)) := by
  refine ⟨?_, ?_, ?_, ?_, ?_, ?_, ?_, ?_, ?_⟩
  · intro hx
    exact ⟨_, _, toGray_BGR prim h x hx, cvtColor_read ..⟩
  · intro hx
    exact ⟨_, _, toGray_RGB prim h x hx, cvtColor_read ..⟩
  · intro hx
    have hg : accepts x.toMat GRAY := by
      rcases hx with hx | hx <;> rw [hx] at ha <;>
        simpa [accepts] using ha
    exact ⟨_, _, toGray_GRAY prim h x hx hg, rfl⟩
  · intro hx
    exact ⟨_, _, toHSV_BGR prim h x hx, cvtColor_read ..⟩
  · intro hx
    exact ⟨_, _, toHSV_RGB prim h x hx, cvtColor_read ..⟩
  · intro hx
    refine ⟨_, _, toHSV_GRAY prim h x hx, ?_⟩
    refine (cvtColor_read prim _ _ _ .COLOR_BGR2HSV).trans ?_
    rw [cvtColor_read]
  · intro hx
    exact ⟨_, _, toBGR_HSV prim h x hx, cvtColor_read ..⟩
  · intro hx
    exact ⟨_, _, toBGR_RGB prim h x hx, cvtColor_read ..⟩
  · intro hx
    exact ⟨_, _, toBGR_GRAY prim h x hx, cvtColor_read ..⟩

/-- C9 on 1x1 images with the sample primitives: the `BGR` pixel (0, 0, 255)
goes to gray 76, and the gray pixel 7 goes to `HSV` through (7, 7, 7). -/
theorem routing_table_witness :
    (∃ h1 out, (image 1 1 CV_8UC3 BGR).toGray samplePrimitives (heapWith [0, 0, 255]) =
        .ok (h1, out) ∧ h1.read out.toMat = [76]) ∧
    (∃ h1 out, (image 1 1 CV_8UC1 GRAY).toHSV samplePrimitives (heapWith [7]) =
        .ok (h1, out) ∧ h1.read out.toMat = [0, 0, 7]) :=
  ⟨(routing_table samplePrimitives (heapWith [0, 0, 255]) (image 1 1 CV_8UC3 BGR)
      (by unfold accepts; decide)).1 rfl,
   (routing_table samplePrimitives (heapWith [7]) (image 1 1 CV_8UC1 GRAY)
      (by unfold accepts; decide)).2.2.2.2.2.1 (Or.inl rfl)⟩

theorem to3ChannelGray_UNKNOWN (prim : cv.Primitives) (h : cv.Heap) (x : Mat)
    (c : colorspace_t) (hx : x.colorspace = UNKNOWN) :
    ∃ f, x.to3ChannelGray prim h c = .error f ∧ f.kind = .UnsupportedConversion := by
  cases c
  · exact ⟨.assert_known_colorspace, by simp [Mat.to3ChannelGray], rfl⟩
  all_goals
    exact ⟨.colorspace_not_implemented,
      by simp [Mat.to3ChannelGray, new_setColorspace, hx, toGray_UNKNOWN prim h x hx], rfl⟩

/-- C10: on an image tagged `UNKNOWN`, each of `toGray`, `toHSV`, `toBGR`,
`to3ChannelGray(c)` for every `c`, and `highlightOverBg` in its three forms
with that image as background, fails with an unsupported-conversion error and
returns no image. -/
theorem unknown_source_fails (prim : cv.Primitives) (h : cv.Heap) (x : Mat)
    (hx : x.colorspace = UNKNOWN) :
    (∃ f, x.toGray prim h = .error f ∧ f.kind = .UnsupportedConversion) ∧
    (∃ f, x.toHSV prim h = .error f ∧ f.kind = .UnsupportedConversion) ∧
    (∃ f, x.toBGR prim h = .error f ∧ f.kind = .UnsupportedConversion) ∧
    (∀ c, ∃ f, x.to3ChannelGray prim h c = .error f ∧ f.kind = .UnsupportedConversion) ∧
    (∀ hl, ∃ f, highlightOverBg prim h x hl = .error f ∧ f.kind = .UnsupportedConversion) ∧
    (∀ hls, ∃ f, highlightOverBg_list prim h x hls = .error f ∧
      f.kind = .UnsupportedConversion) ∧
    (∀ hls, ∃ f, highlightOverBg_vector prim h x hls = .error f ∧
      f.kind = .UnsupportedConversion) := by
  have h3 : x.to3ChannelGray prim h HSV = .error .colorspace_not_implemented := by
    simp [Mat.to3ChannelGray, new_setColorspace, hx, toGray_UNKNOWN prim h x hx]
  refine ⟨⟨_, toGray_UNKNOWN prim h x hx, rfl⟩, ⟨_, toHSV_UNKNOWN prim h x hx, rfl⟩,
    ⟨_, toBGR_UNKNOWN prim h x hx, rfl⟩, fun c => to3ChannelGray_UNKNOWN prim h x c hx,
    fun hl => ⟨.colorspace_not_implemented, ?_, rfl⟩,
    fun hls => ⟨.colorspace_not_implemented, ?_, rfl⟩,
    fun hls => ⟨.colorspace_not_implemented, ?_, rfl⟩⟩
  · simp [highlightOverBg, new_setColorspace, h3]
  · simp [highlightOverBg_list, new_setColorspace, h3]
  · simp [highlightOverBg_vector, new_setColorspace, h3]

/-- C10 at a 2x2 `CV_8UC3` image left untagged by its constructor. -/
theorem unknown_source_fails_witness :
    ∃ f, (image 2 2 CV_8UC3 UNKNOWN).toGray samplePrimitives
        (heapWith [1, 2, 3, 1, 2, 3, 1, 2, 3, 1, 2, 3]) = .error f ∧
      f.kind = .UnsupportedConversion :=
  (unknown_source_fails samplePrimitives _ (image 2 2 CV_8UC3 UNKNOWN) rfl).1

end cspace

namespace cspace

open cv (CV_8UC1 CV_8UC3)
open colorspace_t

/-! ## The heap after a conversion -/

/-- A conversion into a header without data allocates. -/
theorem cvtColor_alloc (prim : cv.Primitives) (h : cv.Heap) (src : cv.Mat) (out : Mat)
    (code : cv.ColorConversionCode) (ho : out.data = none ∨ out.type ≠ cv.dstType code) :
    cvtColor prim h src out code =
      ({ bufs := Function.update h.bufs h.next (prim code (h.read src)), next := h.next + 1 },
       { rows := src.rows, cols := src.cols, type := cv.dstType code, data := some h.next,
         colorspace := out.colorspace }) := by
  unfold cvtColor cv.cvtColor
  have hc : ¬ (out.rows = src.rows ∧ out.cols = src.cols ∧ out.type = cv.dstType code ∧
      out.data.isSome = true) := by
    rintro ⟨-, -, ht, hd⟩
    rcases ho with ho | ho
    · rw [ho] at hd; cases hd
    · exact ho ht
  simp only [hc, if_false, cv.Heap.alloc]

/-- A conversion of a header into itself, when the type stays, overwrites its buffer. -/
theorem cvtColor_inplace (prim : cv.Primitives) (h : cv.Heap) (out : Mat)
    (code : cv.ColorConversionCode) (p : Nat) (ht : out.type = cv.dstType code)
    (hd : out.data = some p) :
    cvtColor prim h out.toMat out code =
      ({ bufs := Function.update h.bufs p (prim code (h.bufs p)), next := h.next }, out) := by
  unfold cvtColor cv.cvtColor
  have hc : out.rows = out.rows ∧ out.cols = out.cols ∧ out.type = cv.dstType code ∧
      out.data.isSome = true := ⟨rfl, rfl, ht, by rw [hd]; rfl⟩
  rw [if_pos hc]
  simp only [cv.Heap.write, cv.Heap.read, hd]

theorem keeps_refl (h : cv.Heap) : keeps h h := ⟨Nat.le_refl _, fun _ _ => rfl⟩

theorem keeps_trans {h h1 h2 : cv.Heap} (a : keeps h h1) (b : keeps h1 h2) : keeps h h2 :=
  ⟨Nat.le_trans a.1 b.1, fun q hq => (b.2 q (Nat.lt_of_lt_of_le hq a.1)).trans (a.2 q hq)⟩

theorem keeps_alloc (h : cv.Heap) (bytes : List Nat) :
    keeps h { bufs := Function.update h.bufs h.next bytes, next := h.next + 1 } :=
  ⟨Nat.le_succ _, fun _ hq => Function.update_noteq (Nat.ne_of_lt hq) _ _⟩

theorem keeps_read {h h1 : cv.Heap} (a : keeps h h1) (m : cv.Mat) (hm : h.allocated m) :
    h1.read m = h.read m := by
  unfold cv.Heap.read
  cases hd : m.data with
  | none => rfl
  | some p => exact a.2 p (hm p hd)

theorem except_match_id (r : Except Failure (cv.Heap × Mat)) :
    (match r with
      | .error e => .error e
      | .ok (h2, b) => (.ok (h2, b) : Except Failure (cv.Heap × Mat))) = r := by
  rcases r with e | ⟨h2, b⟩ <;> rfl

theorem to3ChannelGray_of_toGray (prim : cv.Primitives) (h h0 : cv.Heap) (x g : Mat)
    (hx : x.colorspace = BGR ∨ x.colorspace = RGB ∨ x.colorspace = HSV)
    (hr : x.toGray prim h = .ok (h0, g)) :
    x.to3ChannelGray prim h BGR = g.toBGR prim h0 ∧
    x.to3ChannelGray prim h RGB = g.toBGR prim h0 ∧
    x.to3ChannelGray prim h HSV = g.toHSV prim h0 ∧
    x.to3ChannelGray prim h GRAY = .error .colorspace_3_channel_not_implemented ∧
    x.to3ChannelGray prim h WHITE_ON_BLACK = .error .colorspace_3_channel_not_implemented := by
  rcases hx with hx | hx | hx <;>
    simp [Mat.to3ChannelGray, new_setColorspace, hx, hr, Mat.copy_assign, except_match_id]

theorem to3ChannelGray_of_gray (prim : cv.Primitives) (h : cv.Heap) (x : Mat)
    (hx : x.colorspace = GRAY ∨ x.colorspace = WHITE_ON_BLACK) (ha : accepts x.toMat GRAY) :
    x.to3ChannelGray prim h BGR = ({ x with colorspace := GRAY } : Mat).toBGR prim h ∧
    x.to3ChannelGray prim h RGB = ({ x with colorspace := GRAY } : Mat).toBGR prim h ∧
    x.to3ChannelGray prim h HSV = ({ x with colorspace := GRAY } : Mat).toHSV prim h ∧
    x.to3ChannelGray prim h GRAY = .error .colorspace_3_channel_not_implemented ∧
    x.to3ChannelGray prim h WHITE_ON_BLACK = .error .colorspace_3_channel_not_implemented := by
  rcases hx with hx | hx <;>
    simp [Mat.to3ChannelGray, new_setColorspace, hx, Mat.copy_assign, except_match_id,
      setColorspace_of_accepts x GRAY ha]

end cspace

namespace cspace

open cv (CV_8UC1 CV_8UC3)
open colorspace_t

theorem toGray_keeps (prim : cv.Primitives) (h : cv.Heap) (x : Mat)
    (hx : x.colorspace = BGR ∨ x.colorspace = RGB ∨ x.colorspace = HSV) :
    ∃ (h0 : cv.Heap) (g : Mat), x.toGray prim h = .ok (h0, g) ∧ g.colorspace = GRAY ∧
      g.rows = x.rows ∧ g.cols = x.cols ∧ keeps h h0 := by
  have hnew : ({ Mat.new with colorspace := GRAY } : Mat).data = none := rfl
  rcases hx with hx | hx | hx
  · have hr := toGray_BGR prim h x hx
    rw [cvtColor_alloc prim h _ _ _ (Or.inl hnew)] at hr
    exact ⟨_, _, hr, rfl, rfl, rfl, keeps_alloc _ _⟩
  · have hr := toGray_RGB prim h x hx
    rw [cvtColor_alloc prim h _ _ _ (Or.inl hnew)] at hr
    exact ⟨_, _, hr, rfl, rfl, rfl, keeps_alloc _ _⟩
  · have hr := toGray_HSV prim h x hx
    rw [cvtColor_alloc prim h _ _ _ (Or.inl hnew)] at hr
    have h2 : ∀ (hh : cv.Heap) (o : Mat), o.type = CV_8UC3 →
        cvtColor prim hh x.toMat o .COLOR_BGR2GRAY =
          ({ bufs := Function.update hh.bufs hh.next (prim .COLOR_BGR2GRAY (hh.read x.toMat)),
             next := hh.next + 1 },
           { rows := x.rows, cols := x.cols, type := cv.dstType .COLOR_BGR2GRAY,
             data := some hh.next, colorspace := o.colorspace }) :=
      fun hh o ht => cvtColor_alloc prim hh _ o _ (Or.inr (by rw [ht]; decide))
    rw [h2 _ _ rfl] at hr
    exact ⟨_, _, hr, rfl, rfl, rfl, keeps_trans (keeps_alloc _ _) (keeps_alloc _ _)⟩

/-- The gray image `to3ChannelGray` starts from: on a supported source whose
tag accepts its buffer there are a heap and an image tagged `GRAY`, of the size
of the source, such that `to3ChannelGray(c)` is `toBGR` of it for `c` in `BGR`,
`RGB`, `toHSV` of it for `HSV`, and the final `throw` for `GRAY` and
`WHITE_ON_BLACK`. -/
theorem to3ChannelGray_stage (prim : cv.Primitives) (h : cv.Heap) (x : Mat)
    (hs : supported x.colorspace) (ha : accepts x.toMat x.colorspace) :
    ∃ (h0 : cv.Heap) (g : Mat), g.colorspace = GRAY ∧ g.rows = x.rows ∧ g.cols = x.cols ∧
      keeps h h0 ∧
      x.to3ChannelGray prim h BGR = g.toBGR prim h0 ∧
      x.to3ChannelGray prim h RGB = g.toBGR prim h0 ∧
      x.to3ChannelGray prim h HSV = g.toHSV prim h0 ∧
      x.to3ChannelGray prim h GRAY = .error .colorspace_3_channel_not_implemented ∧
      x.to3ChannelGray prim h WHITE_ON_BLACK = .error .colorspace_3_channel_not_implemented := by
  by_cases hg : x.colorspace = GRAY ∨ x.colorspace = WHITE_ON_BLACK
  · have hag : accepts x.toMat GRAY := by
      rcases hg with hx | hx <;> rw [hx] at ha <;> simpa [accepts] using ha
    exact ⟨h, { x with colorspace := GRAY }, rfl, rfl, rfl, keeps_refl h,
      to3ChannelGray_of_gray prim h x hg hag⟩
  · have hx : x.colorspace = BGR ∨ x.colorspace = RGB ∨ x.colorspace = HSV := by
      cases hc : x.colorspace <;> simp_all [supported]
    obtain ⟨h0, g, hr, hgc, hrow, hcol, hk⟩ := toGray_keeps prim h x hx
    exact ⟨h0, g, hgc, hrow, hcol, hk, to3ChannelGray_of_toGray prim h h0 x g hx hr⟩

/-- Whatever the source, `to3ChannelGray(c)` returns no image for a target
that is not a 3-channel tag. -/
theorem to3ChannelGray_target_error (prim : cv.Primitives) (h : cv.Heap) (x : Mat)
    (c : colorspace_t) (hc : c = UNKNOWN ∨ c = GRAY ∨ c = WHITE_ON_BLACK) :
    ∃ f, x.to3ChannelGray prim h c = .error f := by
  have aux : ∀ (r : Except Failure (cv.Heap × Mat)) (e0 : Failure),
      ∃ f, (match r with
        | Except.error e => Except.error e
        | Except.ok (_, _) => Except.error e0 : Except Failure (cv.Heap × Mat)) =
          Except.error f := by
    intro r e0
    rcases r with e | ⟨a, b⟩ <;> exact ⟨_, rfl⟩
  rcases hc with hc | hc | hc <;> subst hc
  · exact ⟨.assert_known_colorspace, by simp [Mat.to3ChannelGray]⟩
  all_goals
    simp only [Mat.to3ChannelGray, new_setColorspace]
    exact aux _ _

/-- C11: for every source image and every target `c` among `UNKNOWN`, `GRAY`,
`WHITE_ON_BLACK`, `to3ChannelGray(c)` fails and returns no image (so no
1-channel or untagged image either); when the tag of the source accepts its
buffer the failure is an unsupported conversion. -/
theorem to3ChannelGray_rejects_target (prim : cv.Primitives) (h : cv.Heap) (x : Mat)
    (c : colorspace_t) (hc : c = UNKNOWN ∨ c = GRAY ∨ c = WHITE_ON_BLACK) :
    ∃ f, x.to3ChannelGray prim h c = .error f ∧
      (accepts x.toMat x.colorspace → f.kind = .UnsupportedConversion) := by
  by_cases ha : accepts x.toMat x.colorspace
  · by_cases hu : x.colorspace = UNKNOWN
    · obtain ⟨f, hf, hk⟩ := to3ChannelGray_UNKNOWN prim h x c hu
      exact ⟨f, hf, fun _ => hk⟩
    · obtain ⟨h0, g, -, -, -, -, -, -, -, hG, hW⟩ := to3ChannelGray_stage prim h x hu ha
      rcases hc with hc | hc | hc <;> subst hc
      · exact ⟨.assert_known_colorspace, by simp [Mat.to3ChannelGray], fun _ => rfl⟩
      · exact ⟨_, hG, fun _ => rfl⟩
      · exact ⟨_, hW, fun _ => rfl⟩
  · obtain ⟨f, hf⟩ := to3ChannelGray_target_error prim h x c hc
    exact ⟨f, hf, fun h1 => absurd h1 ha⟩

/-- C11 at the 1x1 `BGR` image with target `GRAY`. -/
theorem to3ChannelGray_rejects_target_witness :
    ∃ f, (image 1 1 CV_8UC3 BGR).to3ChannelGray samplePrimitives (heapWith [10, 20, 30])
        GRAY = .error f ∧
      (accepts (image 1 1 CV_8UC3 BGR).toMat (image 1 1 CV_8UC3 BGR).colorspace →
        f.kind = .UnsupportedConversion) :=
  to3ChannelGray_rejects_target samplePrimitives (heapWith [10, 20, 30])
    (image 1 1 CV_8UC3 BGR) GRAY (Or.inr (Or.inl rfl))

/-- The tag `to3ChannelGray(c)` returns: `HSV` for `c = HSV`, and `BGR` for
both `c = BGR` and `c = RGB`, since the result of `toBGR` is copied over `*out`
with its tag. -/
theorem to3ChannelGray_tag (prim : cv.Primitives) (h : cv.Heap) (x : Mat)
    (hs : supported x.colorspace) (ha : accepts x.toMat x.colorspace) :
    (∃ h2 out, x.to3ChannelGray prim h BGR = .ok (h2, out) ∧ out.colorspace = BGR ∧
      out.type = CV_8UC3) ∧
    (∃ h2 out, x.to3ChannelGray prim h RGB = .ok (h2, out) ∧ out.colorspace = BGR ∧
      out.type = CV_8UC3) ∧
    (∃ h2 out, x.to3ChannelGray prim h HSV = .ok (h2, out) ∧ out.colorspace = HSV ∧
      out.type = CV_8UC3) := by
  obtain ⟨h0, g, hg, -, -, -, hB, hR, hH, -, -⟩ := to3ChannelGray_stage prim h x hs ha
  rw [hB, hR, hH, toBGR_GRAY prim h0 g (Or.inl hg), toHSV_GRAY prim h0 g (Or.inl hg)]
  exact ⟨⟨_, _, rfl, rfl, cvtColor_type ..⟩, ⟨_, _, rfl, rfl, cvtColor_type ..⟩,
    ⟨_, _, rfl, rfl, cvtColor_type ..⟩⟩

/-- C12, evaluated where it fails: `to3ChannelGray(RGB)` on a 1x1 `BGR` image
returns a 3-channel image tagged `BGR`, not `RGB`. -/
theorem to3ChannelGray_RGB_returns_BGR :
    ∃ h2 out, (image 1 1 CV_8UC3 BGR).to3ChannelGray samplePrimitives
        (heapWith [10, 20, 30]) RGB = .ok (h2, out) ∧
      out.colorspace = BGR ∧ out.colorspace ≠ RGB ∧ out.type = CV_8UC3 := by
  obtain ⟨h2, out, hr, ht, hty⟩ := (to3ChannelGray_tag samplePrimitives (heapWith [10, 20, 30])
    (image 1 1 CV_8UC3 BGR) (by unfold supported; decide) (by unfold accepts; decide)).2.1
  exact ⟨h2, out, hr, ht, by rw [ht]; decide, hty⟩

end cspace

namespace cspace

open cv (CV_8UC1 CV_8UC3)
open colorspace_t

/-! ## Pixels of `to3ChannelGray` -/

theorem replicated_getElem? (ys : List Nat) (k : Nat) :
    (ys.flatMap fun y => [y, y, y])[3 * k]? = ys[k]? ∧
    (ys.flatMap fun y => [y, y, y])[3 * k + 1]? = ys[k]? ∧
    (ys.flatMap fun y => [y, y, y])[3 * k + 2]? = ys[k]? := by
  induction ys generalizing k with
  | nil => simp
  | cons y ys ih =>
    cases k with
    | zero => simp
    | succ k =>
      have e : 3 * (k + 1) = 3 * k + 3 := by ring
      obtain ⟨h0, h1, h2⟩ := ih k
      simp only [List.flatMap_cons, List.cons_append, List.nil_append, e,
        List.getElem?_cons_succ]
      exact ⟨h0, h1, h2⟩

/-- What `toBGR` returns on a gray image: a new `CV_8UC3` buffer with the
`GRAY2BGR` bytes, tagged `BGR`. -/
theorem toBGR_gray_read (prim : cv.Primitives) (h0 : cv.Heap) (g : Mat)
    (hg : g.colorspace = GRAY) :
    ∃ h2 out, g.toBGR prim h0 = .ok (h2, out) ∧
      h2.read out.toMat = prim .COLOR_GRAY2BGR (h0.read g.toMat) ∧
      out.colorspace = BGR ∧ out.rows = g.rows ∧ out.cols = g.cols ∧
      out.data = some h0.next ∧ keeps h0 h2 := by
  have hnew : ({ Mat.new with colorspace := BGR } : Mat).data = none := rfl
  have hr := toBGR_GRAY prim h0 g (Or.inl hg)
  rw [cvtColor_alloc prim h0 _ _ _ (Or.inl hnew)] at hr
  exact ⟨_, _, hr, by simp [cv.Heap.read], rfl, rfl, rfl, rfl, keeps_alloc _ _⟩

/-- What `toHSV` returns on a gray image: a new `CV_8UC3` buffer holding
`BGR2HSV` of the `GRAY2BGR` bytes, tagged `HSV`. -/
theorem toHSV_gray_read (prim : cv.Primitives) (h0 : cv.Heap) (g : Mat)
    (hg : g.colorspace = GRAY) :
    ∃ h2 out, g.toHSV prim h0 = .ok (h2, out) ∧
      h2.read out.toMat = prim .COLOR_BGR2HSV (prim .COLOR_GRAY2BGR (h0.read g.toMat)) ∧
      out.colorspace = HSV ∧ out.rows = g.rows ∧ out.cols = g.cols ∧
      out.data = some h0.next ∧ keeps h0 h2 := by
  have hnew : ({ Mat.new with colorspace := HSV } : Mat).data = none := rfl
  have hr := toHSV_GRAY prim h0 g (Or.inl hg)
  rw [cvtColor_alloc prim h0 _ _ _ (Or.inl hnew)] at hr
  rw [cvtColor_inplace prim _ _ .COLOR_BGR2HSV h0.next rfl rfl] at hr
  refine ⟨_, _, hr, by simp [cv.Heap.read], rfl, rfl, rfl, rfl, Nat.le_succ _, fun q hq => ?_⟩
  have hne : q ≠ h0.next := Nat.ne_of_lt hq
  simp [Function.update_noteq hne]

/-- C13 fails as stated: with `GRAY2BGR` as replication, `to3ChannelGray(HSV)`
of the 1x1 gray image with value 7 is the pixel (0, 0, 7), whose channels are
not equal. -/
theorem to3ChannelGray_HSV_channels_counterexample :
    replicatesGray samplePrimitives ∧
    ∃ h2 out, (image 1 1 CV_8UC1 GRAY).to3ChannelGray samplePrimitives (heapWith [7]) HSV =
        .ok (h2, out) ∧
      Vec3b_at (h2.read out.toMat) 0 = (some 0, some 0, some 7) := by
  refine ⟨fun _ => rfl, ?_⟩
  have h3 := (to3ChannelGray_of_gray samplePrimitives (heapWith [7]) (image 1 1 CV_8UC1 GRAY)
    (Or.inl rfl) (by unfold accepts; decide)).2.2.1
  obtain ⟨h2, out, hr, hread, -⟩ := toHSV_gray_read samplePrimitives (heapWith [7])
    { image 1 1 CV_8UC1 GRAY with colorspace := GRAY } rfl
  refine ⟨h2, out, h3.trans hr, ?_⟩
  rw [hread]
  decide

/-- C13 as amended: on a supported source whose tag accepts its buffer, with
`GRAY2BGR` replicating the gray value, every pixel returned by
`to3ChannelGray(c)` for `c` in `BGR`, `RGB` has three equal channel values;
for `c = HSV` the returned bytes are `BGR2HSV` of the replicated gray bytes. -/
theorem to3ChannelGray_channels (prim : cv.Primitives) (h : cv.Heap) (x : Mat)
    (hrep : replicatesGray prim) (hs : supported x.colorspace)
    (ha : accepts x.toMat x.colorspace) :
    (∀ c, c = BGR ∨ c = RGB →
      ∃ h2 out, x.to3ChannelGray prim h c = .ok (h2, out) ∧
        ∀ k, ∃ v, Vec3b_at (h2.read out.toMat) k = (v, v, v)) ∧
    (∃ (h2 : cv.Heap) (out : Mat) (gray : List Nat),
      x.to3ChannelGray prim h HSV = .ok (h2, out) ∧
      h2.read out.toMat = prim .COLOR_BGR2HSV (gray.flatMap fun y => [y, y, y])) := by
  obtain ⟨h0, g, hg, -, -, -, hB, hR, hH, -, -⟩ := to3ChannelGray_stage prim h x hs ha
  constructor
  · intro c hc
    obtain ⟨h2, out, hr, hread, -⟩ := toBGR_gray_read prim h0 g hg
    have hto : x.to3ChannelGray prim h c = .ok (h2, out) := by
      rcases hc with hc | hc <;> subst hc
      · exact hB.trans hr
      · exact hR.trans hr
    refine ⟨h2, out, hto, fun k => ⟨(h0.read g.toMat)[k]?, ?_⟩⟩
    rw [hread, hrep]
    obtain ⟨e0, e1, e2⟩ := replicated_getElem? (h0.read g.toMat) k
    simp only [Vec3b_at, e0, e1, e2]
  · obtain ⟨h2, out, hr, hread, -⟩ := toHSV_gray_read prim h0 g hg
    exact ⟨h2, out, h0.read g.toMat, hH.trans hr, by rw [hread, hrep]⟩

/-- C13 as amended, at the 1x1 `BGR` image (10, 20, 30) with the sample primitives. -/
theorem to3ChannelGray_channels_witness :
    replicatesGray samplePrimitives ∧
    ∃ h2 out, (image 1 1 CV_8UC3 BGR).to3ChannelGray samplePrimitives (heapWith [10, 20, 30])
        BGR = .ok (h2, out) ∧
      ∀ k, ∃ v, Vec3b_at (h2.read out.toMat) k = (v, v, v) :=
  ⟨fun _ => rfl,
   (to3ChannelGray_channels samplePrimitives (heapWith [10, 20, 30]) (image 1 1 CV_8UC3 BGR)
      (fun _ => rfl) (by unfold supported; decide) (by unfold accepts; decide)).1 BGR
      (Or.inl rfl)⟩

end cspace

namespace cspace

open cv (CV_8UC1 CV_8UC3)
open colorspace_t

/-! ## Hues -/

theorem hue_map_getElem? (n i : Nat) (hi : i < n) :
    (hue_map n)[i]? = some (((i + 1) * (255 / n % 256)) % 256) := by
  simp [hue_map, List.getElem?_map, List.getElem?_range hi]

theorem hue_no_wrap (n i : Nat) (h1 : 1 ≤ n) (h2 : n ≤ 255) (hi : i < n) :
    ((i + 1) * (255 / n % 256)) % 256 = (i + 1) * (255 / n) ∧
    (i + 1) * (255 / n) ≤ 255 ∧ 0 < (i + 1) * (255 / n) := by
  have hstep : 255 / n ≤ 255 := Nat.div_le_self _ _
  have hpos : 0 < 255 / n := Nat.div_pos h2 h1
  have hle : (i + 1) * (255 / n) ≤ 255 :=
    Nat.le_trans (Nat.mul_le_mul_right _ hi) (Nat.mul_div_le 255 n)
  refine ⟨?_, hle, Nat.mul_pos (Nat.succ_pos i) hpos⟩
  rw [Nat.mod_eq_of_lt (Nat.lt_succ_of_le hstep), Nat.mod_eq_of_lt (Nat.lt_succ_of_le hle)]

/-- C14: for a mask count `N` with `1 <= N <= 255` the hue map of the list and
vector forms (built from `uchar num_hls = N`) has `N` entries; entry `i` is
`(i + 1) * (255 / N)`, with no wrap-around in the 8-bit variables, so it is at
most 255; no entry is 0 and the entries are strictly increasing. -/
theorem hue_map_spec (N : Nat) (h1 : 1 ≤ N) (h2 : N ≤ 255) :
    (hue_map (N % 256)).length = N ∧
    (∀ i, i < N → (hue_map (N % 256))[i]? = some ((i + 1) * (255 / N)) ∧
      (i + 1) * (255 / N) ≤ 255 ∧ 0 < (i + 1) * (255 / N)) ∧
    (∀ i j, i < j → j < N →
      (hue_map (N % 256)).getD i 0 < (hue_map (N % 256)).getD j 0) := by
  have hN : N % 256 = N := Nat.mod_eq_of_lt (by omega)
  rw [hN]
  have hentry : ∀ i, i < N → (hue_map N)[i]? = some ((i + 1) * (255 / N)) := by
    intro i hi
    rw [hue_map_getElem? N i hi, (hue_no_wrap N i h1 h2 hi).1]
  refine ⟨by simp [hue_map], fun i hi => ⟨hentry i hi, (hue_no_wrap N i h1 h2 hi).2⟩, ?_⟩
  intro i j hij hj
  have hpos : 0 < 255 / N := Nat.div_pos h2 h1
  simp only [List.getD_eq_getElem?_getD, hentry i (Nat.lt_trans hij hj), hentry j hj,
    Option.getD_some]
  exact Nat.mul_lt_mul_of_pos_right (Nat.succ_lt_succ hij) hpos

/-- C14 for three masks: the hues are 85, 170, 255. -/
theorem hue_map_spec_witness :
    (hue_map (3 % 256)).length = 3 ∧
    (∀ i, i < 3 → (hue_map (3 % 256))[i]? = some ((i + 1) * (255 / 3)) ∧
      (i + 1) * (255 / 3) ≤ 255 ∧ 0 < (i + 1) * (255 / 3)) ∧
    (∀ i j, i < j → j < 3 →
      (hue_map (3 % 256)).getD i 0 < (hue_map (3 % 256)).getD j 0) :=
  hue_map_spec 3 (by decide) (by decide)

end cspace

namespace cspace

open cv (CV_8UC1 CV_8UC3)
open colorspace_t

/-! ## Painting, on the bytes of the working buffer -/

theorem length_setVec3b (b : List Nat) (k hue : Nat) : (setVec3b b k hue).length = b.length := by
  simp [setVec3b]

theorem Vec3b_at_setVec3b_self (b : List Nat) (k hue : Nat) (hk : 3 * k + 2 < b.length) :
    Vec3b_at (setVec3b b k hue) k = (some hue, some 255, some 255) := by
  have h0 : 3 * k < b.length := by omega
  have h1 : 3 * k + 1 < b.length := by omega
  simp [Vec3b_at, setVec3b, List.getElem?_set, h0, h1, hk]

theorem Vec3b_at_setVec3b_ne (b : List Nat) (k j hue : Nat) (hj : j ≠ k) :
    Vec3b_at (setVec3b b k hue) j = Vec3b_at b j := by
  have a0 : 3 * k ≠ 3 * j := by omega
  have a1 : 3 * k ≠ 3 * j + 1 := by omega
  have a2 : 3 * k ≠ 3 * j + 2 := by omega
  have b0 : 3 * k + 1 ≠ 3 * j := by omega
  have b1 : 3 * k + 1 ≠ 3 * j + 1 := by omega
  have b2 : 3 * k + 1 ≠ 3 * j + 2 := by omega
  have c0 : 3 * k + 2 ≠ 3 * j := by omega
  have c1 : 3 * k + 2 ≠ 3 * j + 1 := by omega
  have c2 : 3 * k + 2 ≠ 3 * j + 2 := by omega
  simp [Vec3b_at, setVec3b, List.getElem?_set_ne, a0, a1, a2, b0, b1, b2, c0, c1, c2]

/-- One mask: the loop over the first `m` pixels paints exactly those of them
that the mask claims. -/
theorem paint_first_pixels (hue : Nat) (mask b : List Nat) (m : Nat) (hm : 3 * m ≤ b.length) :
    ((List.range m).foldl (fun b k => if mask.getD k 0 > 127 then setVec3b b k hue else b)
        b).length = b.length ∧
    ∀ k, Vec3b_at ((List.range m).foldl
        (fun b k => if mask.getD k 0 > 127 then setVec3b b k hue else b) b) k =
      if k < m ∧ mask.getD k 0 > 127 then (some hue, some 255, some 255) else Vec3b_at b k := by
  induction m with
  | zero => simp
  | succ m ih =>
    obtain ⟨hl, hp⟩ := ih (by omega)
    rw [List.range_succ, List.foldl_append]
    simp only [List.foldl_cons, List.foldl_nil]
    have hcond : ∀ k, k ≠ m →
        (if k < m ∧ mask.getD k 0 > 127 then (some hue, some 255, some 255) else Vec3b_at b k) =
        (if k < m + 1 ∧ mask.getD k 0 > 127 then (some hue, some 255, some 255)
          else Vec3b_at b k) := by
      intro k hk
      by_cases hq : k < m ∧ mask.getD k 0 > 127
      · rw [if_pos hq, if_pos ⟨Nat.lt_succ_of_lt hq.1, hq.2⟩]
      · rw [if_neg hq, if_neg (fun hq1 => hq ⟨by omega, hq1.2⟩)]
    by_cases hc : mask.getD m 0 > 127
    · rw [if_pos hc]
      refine ⟨by rw [length_setVec3b, hl], fun k => ?_⟩
      by_cases hk : k = m
      · subst hk
        rw [Vec3b_at_setVec3b_self _ _ _ (by rw [hl]; omega),
          if_pos ⟨Nat.lt_succ_self _, hc⟩]
      · rw [Vec3b_at_setVec3b_ne _ _ _ _ hk, hp k, hcond k hk]
    · rw [if_neg hc]
      refine ⟨hl, fun k => ?_⟩
      rw [hp k]
      by_cases hk : k = m
      · subst hk
        rw [if_neg (fun hq => Nat.lt_irrefl _ hq.1), if_neg (fun hq => hc hq.2)]
      · exact hcond k hk

theorem paint_mask_spec (hue : Nat) (mask b : List Nat) (n : Nat) (hn : b.length = 3 * n) :
    (paint_mask hue mask n b).length = b.length ∧
    ∀ k, k < n → Vec3b_at (paint_mask hue mask n b) k =
      if mask.getD k 0 > 127 then (some hue, some 255, some 255) else Vec3b_at b k := by
  obtain ⟨hl, hp⟩ := paint_first_pixels hue mask b n (by omega)
  refine ⟨hl, fun k hk => ?_⟩
  unfold paint_mask
  rw [hp k]
  by_cases hq : mask.getD k 0 > 127
  · rw [if_pos ⟨hk, hq⟩, if_pos hq]
  · rw [if_neg (fun hq1 => hq hq1.2), if_neg hq]

/-- Several masks, last one wins: after the loop over `masks` from hue index
`i0`, a pixel claimed by mask `j` and by no later mask carries hue
`hues[i0 + j]`; a pixel no mask claims is unchanged. -/
theorem paint_masks_spec (hues : List Nat) (n : Nat) (masks : List (List Nat)) :
    ∀ (i0 : Nat) (b : List Nat), b.length = 3 * n → ∀ k, k < n →
      (∀ j, 127 < (masks.getD j []).getD k 0 →
        (∀ j1, j < j1 → (masks.getD j1 []).getD k 0 ≤ 127) →
        Vec3b_at (paint_masks hues n masks i0 b).1 k =
          (some (hues.getD (i0 + j) 0), some 255, some 255)) ∧
      ((∀ j, (masks.getD j []).getD k 0 ≤ 127) →
        Vec3b_at (paint_masks hues n masks i0 b).1 k = Vec3b_at b k) := by
  induction masks with
  | nil =>
    intro i0 b _ k _
    constructor
    · intro j hj
      simp at hj
    · intro _
      rfl
  | cons m ms ih =>
    intro i0 b hb k hk
    obtain ⟨hl, hp⟩ := paint_mask_spec (hues.getD i0 0) m b n hb
    have hstep : paint_masks hues n (m :: ms) i0 b =
        paint_masks hues n ms (i0 + 1) (paint_mask (hues.getD i0 0) m n b) := rfl
    rw [hstep]
    obtain ⟨ih1, ih2⟩ := ih (i0 + 1) (paint_mask (hues.getD i0 0) m n b) (by rw [hl, hb]) k hk
    constructor
    · intro j hj hlast
      cases j with
      | zero =>
        have hnone : ∀ j, ((ms.getD j []).getD k 0) ≤ 127 :=
          fun j => hlast (j + 1) (Nat.succ_pos j)
        have hm : m.getD k 0 > 127 := hj
        rw [ih2 hnone, hp k hk, if_pos hm]
        rfl
      | succ j =>
        have hj1 : 127 < (ms.getD j []).getD k 0 := hj
        have hl1 : ∀ j1, j < j1 → (ms.getD j1 []).getD k 0 ≤ 127 :=
          fun j1 h1 => hlast (j1 + 1) (Nat.succ_lt_succ h1)
        rw [ih1 j hj1 hl1]
        have e : i0 + 1 + j = i0 + (j + 1) := by omega
        rw [e]
    · intro hnone
      have hnone1 : ∀ j, ((ms.getD j []).getD k 0) ≤ 127 := fun j => hnone (j + 1)
      have hm : ¬ m.getD k 0 > 127 := Nat.not_lt.2 (hnone 0)
      rw [ih2 hnone1, hp k hk, if_neg hm]

end cspace

namespace cspace

open cv (CV_8UC1 CV_8UC3)
open colorspace_t

/-! ## Painting, on the heap -/

theorem withBuf_self (h : cv.Heap) (p : Nat) : withBuf h p (h.bufs p) = h := by
  unfold withBuf
  rw [Function.update_eq_self]

theorem withBuf_withBuf (h : cv.Heap) (p : Nat) (b b1 : List Nat) :
    withBuf (withBuf h p b) p b1 = withBuf h p b1 := by
  unfold withBuf
  simp

theorem withBuf_read_self (h : cv.Heap) (p : Nat) (b : List Nat) (out : cv.Mat)
    (ho : out.data = some p) : (withBuf h p b).read out = b := by
  simp [withBuf, cv.Heap.read, ho]

theorem withBuf_read_ne (h : cv.Heap) (p : Nat) (b : List Nat) (m : cv.Mat)
    (hm : m.data ≠ some p) : (withBuf h p b).read m = h.read m := by
  unfold withBuf cv.Heap.read
  cases hd : m.data with
  | none => rfl
  | some q =>
    have hq : q ≠ p := fun e => hm (by rw [hd, e])
    simp [Function.update_noteq hq]

theorem highlight_pixel_withBuf (hue : Nat) (hl out : cv.Mat) (h : cv.Heap) (p : Nat)
    (b : List Nat) (k : Nat) (ho : out.data = some p) (hm : hl.data ≠ some p) :
    highlight_pixel hue hl out (withBuf h p b) k =
      withBuf h p (if (h.read hl).getD k 0 > 127 then setVec3b b k hue else b) := by
  unfold highlight_pixel
  rw [withBuf_read_ne h p b hl hm, withBuf_read_self h p b out ho]
  by_cases hc : (h.read hl).getD k 0 > 127
  · rw [if_pos hc, if_pos hc, ho]
    exact withBuf_withBuf h p b _
  · rw [if_neg hc, if_neg hc]

theorem highlight_mask_withBuf (hue : Nat) (hl out : cv.Mat) (h : cv.Heap) (p : Nat)
    (b : List Nat) (ho : out.data = some p) (hm : hl.data ≠ some p) :
    highlight_mask hue hl out (withBuf h p b) =
      withBuf h p (paint_mask hue (h.read hl) (out.rows * out.cols) b) := by
  unfold highlight_mask paint_mask
  generalize List.range (out.rows * out.cols) = ks
  induction ks generalizing b with
  | nil => rfl
  | cons k ks ih =>
    rw [List.foldl_cons, List.foldl_cons, highlight_pixel_withBuf hue hl out h p b k ho hm, ih]

theorem highlight_masks_withBuf (hues : List Nat) (out : cv.Mat) (h : cv.Heap) (p : Nat)
    (ho : out.data = some p) (hls : List Mat) (hm : ∀ hl ∈ hls, hl.data ≠ some p) :
    ∀ (i0 : Nat) (b : List Nat),
      (hls.foldl
        (fun (st : cv.Heap × Nat) hl =>
          (highlight_mask (hues.getD st.2 0) hl.toMat out st.1, st.2 + 1))
        (withBuf h p b, i0)).1 =
      withBuf h p
        (paint_masks hues (out.rows * out.cols) (hls.map fun hl => h.read hl.toMat) i0 b).1 := by
  induction hls with
  | nil => intro i0 b; rfl
  | cons hl hls ih =>
    intro i0 b
    rw [List.foldl_cons]
    simp only
    rw [highlight_mask_withBuf _ hl.toMat out h p b ho (hm hl (List.mem_cons_self _ _)),
      ih (fun x hx => hm x (List.mem_cons_of_mem _ hx))]
    rfl

/-- The heap handed to the final `toBGR`: the heap after `to3ChannelGray` with
the working buffer painted mask after mask. -/
theorem highlight_masks_eq (hues : List Nat) (out : cv.Mat) (h : cv.Heap) (p : Nat)
    (ho : out.data = some p) (hls : List Mat) (hm : ∀ hl ∈ hls, hl.data ≠ some p) :
    highlight_masks hues out h hls =
      withBuf h p
        (paint_masks hues (out.rows * out.cols) (hls.map fun hl => h.read hl.toMat) 0
          (h.bufs p)).1 := by
  unfold highlight_masks
  have e := highlight_masks_withBuf hues out h p ho hls hm 0 (h.bufs p)
  rw [withBuf_self] at e
  exact e

theorem mask_at_eq (h : cv.Heap) (hls : List Mat) (j k : Nat) :
    ((hls.map fun hl => h.read hl.toMat).getD j []).getD k 0 = mask_at h hls j k := by
  unfold mask_at
  have e : (hls.map fun hl => h.read hl.toMat).getD j [] =
      ((hls[j]?).map fun hl => h.read hl.toMat).getD [] := by
    rw [List.getD_eq_getElem?_getD, List.getElem?_map]
  rw [e]
  cases hls[j]? <;> rfl

/-- On a supported background whose tag accepts its buffer, `to3ChannelGray(HSV)`
returns an image tagged `HSV`, of the size of the background, over a buffer
allocated by the call; the buffers that existed before are unchanged. -/
theorem to3ChannelGray_HSV_ok (prim : cv.Primitives) (h : cv.Heap) (bg : Mat)
    (hs : supported bg.colorspace) (ha : accepts bg.toMat bg.colorspace) :
    ∃ (h1 : cv.Heap) (g : Mat) (p : Nat), bg.to3ChannelGray prim h HSV = .ok (h1, g) ∧
      g.colorspace = HSV ∧ g.rows = bg.rows ∧ g.cols = bg.cols ∧ g.data = some p ∧
      h.next ≤ p ∧ keeps h h1 := by
  obtain ⟨h0, g0, hg, hrow, hcol, hk, -, -, hH, -, -⟩ := to3ChannelGray_stage prim h bg hs ha
  obtain ⟨h1, g, hr, -, hc, hr1, hc1, hd, hk1⟩ := toHSV_gray_read prim h0 g0 hg
  exact ⟨h1, g, h0.next, hH.trans hr, hc, hr1.trans hrow, hc1.trans hcol, hd, hk.1,
    keeps_trans hk hk1⟩

theorem highlightOverBg_list_eq (prim : cv.Primitives) (h h1 : cv.Heap) (bg g : Mat)
    (hls : List Mat) (hto : bg.to3ChannelGray prim h HSV = .ok (h1, g)) :
    highlightOverBg_list prim h bg hls =
      if ¬ hls.length < 256 then .error .assert_color_depth
      else if hls.length % 256 = 0 then .error .division_by_zero
      else g.toBGR prim (highlight_masks (hue_map (hls.length % 256)) g.toMat h1 hls) := by
  simp only [highlightOverBg_list, new_setColorspace, hto, Mat.copy_assign]

theorem highlightOverBg_vector_eq (prim : cv.Primitives) (h h1 : cv.Heap) (bg g : Mat)
    (hls : List Mat) (hto : bg.to3ChannelGray prim h HSV = .ok (h1, g)) :
    highlightOverBg_vector prim h bg hls =
      if ¬ hls.length < 256 then .error .assert_color_depth
      else if hls.length % 256 = 0 then .error .division_by_zero
      else g.toBGR prim (highlight_masks (hue_map (hls.length % 256)) g.toMat h1 hls) := by
  simp only [highlightOverBg_vector, new_setColorspace, hto, Mat.copy_assign]

theorem highlightOverBg_eq (prim : cv.Primitives) (h h1 : cv.Heap) (bg g hl : Mat)
    (hto : bg.to3ChannelGray prim h HSV = .ok (h1, g)) :
    highlightOverBg prim h bg hl =
      g.toBGR prim (highlight_mask 100 hl.toMat g.toMat h1) := by
  simp only [highlightOverBg, new_setColorspace, hto, Mat.copy_assign]

end cspace

namespace cspace

open cv (CV_8UC1 CV_8UC3)
open colorspace_t

theorem mask_at_lt (h : cv.Heap) (hls : List Mat) (j p : Nat) (hj : 127 < mask_at h hls j p) :
    j < hls.length := by
  by_contra hn
  have e : hls[j]? = none := List.getElem?_eq_none (Nat.le_of_not_lt hn)
  unfold mask_at at hj
  rw [e] at hj
  exact Nat.not_lt_zero _ hj

/-- C15: the list and vector forms of `highlightOverBg`, on a supported
background whose tag accepts its buffer and `1 <= N <= 255` masks that exist
before the call and have the size of the background, hand to the final `toBGR`
the buffer of `to3ChannelGray(HSV)` in which each pixel `p` claimed by some
mask (value above 127) is `(hue[j], 255, 255)`, `j` being the last mask that
claims `p` and `hue[j] = (j + 1) * (255 / N)`, and each pixel no mask claims is
as `to3ChannelGray(HSV)` left it. The working buffer is taken to hold
`rows * cols` pixels of three bytes. -/
theorem highlight_last_wins (prim : cv.Primitives) (h : cv.Heap) (bg : Mat) (hls : List Mat)
    (hs : supported bg.colorspace) (ha : accepts bg.toMat bg.colorspace)
    (h1N : 1 ≤ hls.length) (h2N : hls.length ≤ 255)
    (hmasks : ∀ hl ∈ hls,
      h.allocated hl.toMat ∧ (h.read hl.toMat).length = bg.rows * bg.cols)
    (hsize : ∀ h1 g, bg.to3ChannelGray prim h HSV = .ok (h1, g) →
      (h1.read g.toMat).length = 3 * (bg.rows * bg.cols)) :
    ∃ (h1 : cv.Heap) (g : Mat) (W : cv.Heap),
      bg.to3ChannelGray prim h HSV = .ok (h1, g) ∧
      W = highlight_masks (hue_map (hls.length % 256)) g.toMat h1 hls ∧
      highlightOverBg_list prim h bg hls = g.toBGR prim W ∧
      highlightOverBg_vector prim h bg hls = g.toBGR prim W ∧
      ∀ p, p < bg.rows * bg.cols →
        (∀ j, 127 < mask_at h hls j p → (∀ j1, j < j1 → mask_at h hls j1 p ≤ 127) →
          Vec3b_at (W.read g.toMat) p =
            (some ((j + 1) * (255 / hls.length)), some 255, some 255)) ∧
        ((∀ j, mask_at h hls j p ≤ 127) →
          Vec3b_at (W.read g.toMat) p = Vec3b_at (h1.read g.toMat) p) := by
  obtain ⟨h1, g, p0, hto, -, hrow, hcol, hd, hp0, hk⟩ := to3ChannelGray_HSV_ok prim h bg hs ha
  have hne : ∀ hl ∈ hls, hl.data ≠ some p0 := by
    intro hl hmem e
    exact absurd ((hmasks hl hmem).1 p0 e) (Nat.not_lt.2 hp0)
  have hlt : hls.length < 256 := by omega
  have hmod : hls.length % 256 = hls.length := Nat.mod_eq_of_lt hlt
  have hnz : ¬ hls.length % 256 = 0 := by omega
  have hmap : (hls.map fun hl => h1.read hl.toMat) = hls.map fun hl => h.read hl.toMat :=
    List.map_congr_left fun hl hmem => keeps_read hk hl.toMat (hmasks hl hmem).1
  have hW := highlight_masks_eq (hue_map (hls.length % 256)) g.toMat h1 p0 hd hls hne
  rw [hmap] at hW
  have hbuf : h1.read g.toMat = h1.bufs p0 := by simp [cv.Heap.read, hd]
  have hlen : (h1.bufs p0).length = 3 * (g.rows * g.cols) := by
    rw [← hbuf, hsize h1 g hto, hrow, hcol]
  refine ⟨h1, g, _, hto, rfl, ?_, ?_, ?_⟩
  · rw [highlightOverBg_list_eq prim h h1 bg g hls hto, if_neg (not_not.2 hlt), if_neg hnz]
  · rw [highlightOverBg_vector_eq prim h h1 bg g hls hto, if_neg (not_not.2 hlt), if_neg hnz]
  · intro p hp
    have hp1 : p < g.rows * g.cols := by rw [hrow, hcol]; exact hp
    obtain ⟨s1, s2⟩ := paint_masks_spec (hue_map (hls.length % 256)) (g.rows * g.cols)
      (hls.map fun hl => h.read hl.toMat) 0 (h1.bufs p0) hlen p hp1
    simp only [mask_at_eq] at s1 s2
    rw [hW, withBuf_read_self h1 p0 _ g.toMat hd, hbuf]
    refine ⟨fun j hj hlast => ?_, s2⟩
    have hjN := mask_at_lt h hls j p hj
    rw [s1 j hj hlast, Nat.zero_add, hmod, List.getD_eq_getElem?_getD,
      hue_map_getElem? _ j hjN, (hue_no_wrap _ j h1N h2N hjN).1]
    rfl

end cspace

namespace cspace

open cv (CV_8UC1 CV_8UC3)
open colorspace_t

theorem pixelsOf_ok (r : Except Failure (cv.Heap × Mat)) (h1 : cv.Heap) (g : Mat)
    (hr : r = .ok (h1, g)) : pixelsOf r = some (h1.read g.toMat) := by
  rw [hr]; rfl

/-- C15 on a 1x1 mid-gray `BGR` background with two masks that both claim the
pixel: the working buffer carries the hue of mask 1, `2 * (255 / 2) = 254`. -/
theorem highlight_last_wins_witness :
    ∃ (h1 : cv.Heap) (g : Mat) (W : cv.Heap),
      (imageAt 0 1 1 CV_8UC3 BGR).to3ChannelGray samplePrimitives
        (heapOf [[128, 128, 128], [200], [200]]) HSV = .ok (h1, g) ∧
      highlightOverBg_list samplePrimitives (heapOf [[128, 128, 128], [200], [200]])
        (imageAt 0 1 1 CV_8UC3 BGR) [imageAt 1 1 1 CV_8UC1 GRAY, imageAt 2 1 1 CV_8UC1 GRAY] =
          g.toBGR samplePrimitives W ∧
      Vec3b_at (W.read g.toMat) 0 = (some 254, some 255, some 255) := by
  obtain ⟨h1, g, W, hto, -, hl, -, hp⟩ := highlight_last_wins samplePrimitives
    (heapOf [[128, 128, 128], [200], [200]]) (imageAt 0 1 1 CV_8UC3 BGR)
    [imageAt 1 1 1 CV_8UC1 GRAY, imageAt 2 1 1 CV_8UC1 GRAY]
    (by unfold supported; decide) (by unfold accepts; decide) (by decide) (by decide)
    (by
      intro hl hmem
      simp only [List.mem_cons, List.mem_singleton, List.not_mem_nil, or_false] at hmem
      rcases hmem with e | e <;> subst e
      · exact ⟨fun p hp => by cases hp; decide, by decide⟩
      · exact ⟨fun p hp => by cases hp; decide, by decide⟩)
    (by
      intro h1 g hto
      have e := pixelsOf_ok _ h1 g hto
      have e2 : pixelsOf ((imageAt 0 1 1 CV_8UC3 BGR).to3ChannelGray samplePrimitives
          (heapOf [[128, 128, 128], [200], [200]]) HSV) = some [0, 0, 128] := by decide
      rw [e2] at e
      rw [← Option.some.inj e]
      decide)
  exact ⟨h1, g, W, hto, hl, (hp 0 (by decide)).1 1 (by decide)
    (fun j1 hj1 => by
      have e : ([imageAt 1 1 1 CV_8UC1 GRAY, imageAt 2 1 1 CV_8UC1 GRAY] : List Mat)[j1]? =
          none := List.getElem?_eq_none (by simpa using hj1)
      unfold mask_at
      rw [e]
      exact Nat.zero_le _)⟩

end cspace

namespace cspace

open cv (CV_8UC1 CV_8UC3)
open colorspace_t

/-! ## The mask count -/

/-- With no mask the list and vector forms pass `assert(hls.size() < 256)` and
then divide 255 by `num_hls = 0`. -/
theorem highlightOverBg_no_mask (prim : cv.Primitives) (h : cv.Heap) (bg : Mat)
    (hs : supported bg.colorspace) (ha : accepts bg.toMat bg.colorspace) :
    highlightOverBg_list prim h bg [] = .error .division_by_zero ∧
    highlightOverBg_vector prim h bg [] = .error .division_by_zero := by
  obtain ⟨h1, g, -, hto, -⟩ := to3ChannelGray_HSV_ok prim h bg hs ha
  rw [highlightOverBg_list_eq prim h h1 bg g [] hto,
    highlightOverBg_vector_eq prim h h1 bg g [] hto]
  exact ⟨rfl, rfl⟩

/-- C16, evaluated where it fails: a 2x2 mid-gray `BGR` background and an empty
mask collection. Both forms end in the division `255 / num_hls` with
`num_hls = 0`, not in a capacity error. -/
theorem highlightOverBg_empty_divides_by_zero :
    highlightOverBg_list samplePrimitives
      (heapOf [[128, 128, 128, 128, 128, 128, 128, 128, 128, 128, 128, 128]])
      (imageAt 0 2 2 CV_8UC3 BGR) [] = .error .division_by_zero ∧
    highlightOverBg_vector samplePrimitives
      (heapOf [[128, 128, 128, 128, 128, 128, 128, 128, 128, 128, 128, 128]])
      (imageAt 0 2 2 CV_8UC3 BGR) [] = .error .division_by_zero ∧
    Failure.division_by_zero.kind ≠ .CapacityExceeded :=
  ⟨(highlightOverBg_no_mask samplePrimitives _ (imageAt 0 2 2 CV_8UC3 BGR)
      (by unfold supported; decide) (by unfold accepts; decide)).1,
   (highlightOverBg_no_mask samplePrimitives _ (imageAt 0 2 2 CV_8UC3 BGR)
      (by unfold supported; decide) (by unfold accepts; decide)).2,
   by decide⟩

/-- C17: with 256 masks or more, on a supported background whose tag accepts
its buffer, the list and vector forms fail at `assert(hls.size() < 256)`, a
capacity error, and return no image; the hue step, the hue map and the pixel
loops come after that assertion and are not reached. -/
theorem highlightOverBg_too_many_masks (prim : cv.Primitives) (h : cv.Heap) (bg : Mat)
    (hls : List Mat) (hs : supported bg.colorspace) (ha : accepts bg.toMat bg.colorspace)
    (hN : 256 ≤ hls.length) :
    highlightOverBg_list prim h bg hls = .error .assert_color_depth ∧
    highlightOverBg_vector prim h bg hls = .error .assert_color_depth ∧
    Failure.assert_color_depth.kind = .CapacityExceeded := by
  obtain ⟨h1, g, -, hto, -⟩ := to3ChannelGray_HSV_ok prim h bg hs ha
  have hnot : ¬ hls.length < 256 := Nat.not_lt.2 hN
  rw [highlightOverBg_list_eq prim h h1 bg g hls hto,
    highlightOverBg_vector_eq prim h h1 bg g hls hto, if_pos hnot]
  exact ⟨rfl, rfl, rfl⟩

/-- C17 with 256 copies of a 1x1 mask on a 1x1 `BGR` background. -/
theorem highlightOverBg_too_many_masks_witness :
    highlightOverBg_list samplePrimitives (heapOf [[128, 128, 128], [200]])
      (imageAt 0 1 1 CV_8UC3 BGR) (List.replicate 256 (imageAt 1 1 1 CV_8UC1 GRAY)) =
        .error .assert_color_depth ∧
    highlightOverBg_vector samplePrimitives (heapOf [[128, 128, 128], [200]])
      (imageAt 0 1 1 CV_8UC3 BGR) (List.replicate 256 (imageAt 1 1 1 CV_8UC1 GRAY)) =
        .error .assert_color_depth ∧
    Failure.assert_color_depth.kind = .CapacityExceeded :=
  highlightOverBg_too_many_masks samplePrimitives _ (imageAt 0 1 1 CV_8UC3 BGR)
    (List.replicate 256 (imageAt 1 1 1 CV_8UC1 GRAY))
    (by unfold supported; decide) (by unfold accepts; decide)
    (by rw [List.length_replicate])

/-! ## The three forms -/

/-- What `toBGR` returns on an `HSV` image: a new buffer with the `HSV2BGR`
bytes, tagged `BGR`, of the size of the source. -/
theorem toBGR_HSV_read (prim : cv.Primitives) (h0 : cv.Heap) (g : Mat)
    (hg : g.colorspace = HSV) :
    ∃ h2 out, g.toBGR prim h0 = .ok (h2, out) ∧
      h2.read out.toMat = prim .COLOR_HSV2BGR (h0.read g.toMat) ∧
      out.colorspace = BGR ∧ out.rows = g.rows ∧ out.cols = g.cols := by
  have hnew : ({ Mat.new with colorspace := BGR } : Mat).data = none := rfl
  have hr := toBGR_HSV prim h0 g hg
  rw [cvtColor_alloc prim h0 _ _ _ (Or.inl hnew)] at hr
  exact ⟨_, _, hr, by simp [cv.Heap.read], rfl, rfl, rfl⟩

/-- C18 fails as stated: on a 1x1 mid-gray `BGR` background with the 1x1 mask
200, the single-mask form hands (100, 255, 255) to the final `toBGR` and
returns the pixel (255, 170, 0); the one-element list and vector forms hand
over (255, 255, 255) and return (127, 255, 0). -/
theorem highlightOverBg_forms_counterexample :
    workingBuffer samplePrimitives (heapOf [[128, 128, 128], [200]])
      (imageAt 0 1 1 CV_8UC3 BGR) (highlight_mask 100 (imageAt 1 1 1 CV_8UC1 GRAY).toMat) =
        some [100, 255, 255] ∧
    workingBuffer samplePrimitives (heapOf [[128, 128, 128], [200]])
      (imageAt 0 1 1 CV_8UC3 BGR)
      (fun out h1 => highlight_masks (hue_map ([imageAt 1 1 1 CV_8UC1 GRAY].length % 256))
        out h1 [imageAt 1 1 1 CV_8UC1 GRAY]) = some [255, 255, 255] ∧
    pixelsOf (highlightOverBg samplePrimitives (heapOf [[128, 128, 128], [200]])
      (imageAt 0 1 1 CV_8UC3 BGR) (imageAt 1 1 1 CV_8UC1 GRAY)) = some [255, 170, 0] ∧
    pixelsOf (highlightOverBg_list samplePrimitives (heapOf [[128, 128, 128], [200]])
      (imageAt 0 1 1 CV_8UC3 BGR) [imageAt 1 1 1 CV_8UC1 GRAY]) = some [127, 255, 0] ∧
    pixelsOf (highlightOverBg_vector samplePrimitives (heapOf [[128, 128, 128], [200]])
      (imageAt 0 1 1 CV_8UC3 BGR) [imageAt 1 1 1 CV_8UC1 GRAY]) = some [127, 255, 0] := by
  decide

/-- C18 as amended: the list form and the vector form return the same result
for every background and every mask sequence; on a supported background whose
tag accepts its buffer the single-mask form returns `toBGR` of the
`to3ChannelGray(HSV)` buffer painted by the pixel loop with the fixed hue 100,
and the one-element list and vector forms return `toBGR` of the same buffer
painted by the same loop with hue 255. -/
theorem highlightOverBg_forms (prim : cv.Primitives) (h : cv.Heap) (bg m : Mat) :
    (∀ ms, highlightOverBg_list prim h bg ms = highlightOverBg_vector prim h bg ms) ∧
    (supported bg.colorspace → accepts bg.toMat bg.colorspace →
      ∃ (h1 : cv.Heap) (g : Mat), bg.to3ChannelGray prim h HSV = .ok (h1, g) ∧
        highlightOverBg prim h bg m =
          g.toBGR prim (highlight_mask 100 m.toMat g.toMat h1) ∧
        highlightOverBg_list prim h bg [m] =
          g.toBGR prim (highlight_mask 255 m.toMat g.toMat h1) ∧
        highlightOverBg_vector prim h bg [m] =
          g.toBGR prim (highlight_mask 255 m.toMat g.toMat h1)) := by
  refine ⟨fun ms => rfl, fun hs ha => ?_⟩
  obtain ⟨h1, g, -, hto, -⟩ := to3ChannelGray_HSV_ok prim h bg hs ha
  have hlen : ([m] : List Mat).length = 1 := rfl
  have hlt : ¬ ¬ 1 < 256 := by decide
  have hnz : ¬ 1 % 256 = 0 := by decide
  have hhue : (hue_map (1 % 256)).getD 0 0 = 255 := by decide
  have hone : g.toBGR prim (highlight_masks (hue_map (1 % 256)) g.toMat h1 [m]) =
      g.toBGR prim (highlight_mask 255 m.toMat g.toMat h1) := by
    show g.toBGR prim (highlight_mask ((hue_map (1 % 256)).getD 0 0) m.toMat g.toMat h1) = _
    rw [hhue]
  refine ⟨h1, g, hto, highlightOverBg_eq prim h h1 bg g m hto, ?_, ?_⟩
  · rw [highlightOverBg_list_eq prim h h1 bg g [m] hto, hlen, if_neg hlt, if_neg hnz]
    exact hone
  · rw [highlightOverBg_vector_eq prim h h1 bg g [m] hto, hlen, if_neg hlt, if_neg hnz]
    exact hone

/-- C18 as amended, on the 1x1 mid-gray background with the 1x1 mask 200. -/
theorem highlightOverBg_forms_witness :
    ∃ (h1 : cv.Heap) (g : Mat),
      (imageAt 0 1 1 CV_8UC3 BGR).to3ChannelGray samplePrimitives
        (heapOf [[128, 128, 128], [200]]) HSV = .ok (h1, g) ∧
      highlightOverBg samplePrimitives (heapOf [[128, 128, 128], [200]])
        (imageAt 0 1 1 CV_8UC3 BGR) (imageAt 1 1 1 CV_8UC1 GRAY) =
        g.toBGR samplePrimitives
          (highlight_mask 100 (imageAt 1 1 1 CV_8UC1 GRAY).toMat g.toMat h1) ∧
      highlightOverBg_list samplePrimitives (heapOf [[128, 128, 128], [200]])
        (imageAt 0 1 1 CV_8UC3 BGR) [imageAt 1 1 1 CV_8UC1 GRAY] =
        g.toBGR samplePrimitives
          (highlight_mask 255 (imageAt 1 1 1 CV_8UC1 GRAY).toMat g.toMat h1) ∧
      highlightOverBg_vector samplePrimitives (heapOf [[128, 128, 128], [200]])
        (imageAt 0 1 1 CV_8UC3 BGR) [imageAt 1 1 1 CV_8UC1 GRAY] =
        g.toBGR samplePrimitives
          (highlight_mask 255 (imageAt 1 1 1 CV_8UC1 GRAY).toMat g.toMat h1) :=
  (highlightOverBg_forms samplePrimitives (heapOf [[128, 128, 128], [200]])
    (imageAt 0 1 1 CV_8UC3 BGR) (imageAt 1 1 1 CV_8UC1 GRAY)).2
    (by unfold supported; decide) (by unfold accepts; decide)

/-- C20, evaluated where it fails: `setColorspace(BGR)` on a default-constructed
image stores the tag and nothing else; `type()` is still 0, that is `CV_8UC1`,
one channel, and not `CV_8UC3` as the test `default_Mat_type` asserts. -/
theorem setColorspace_keeps_default_type :
    Mat.new.setColorspace BGR = (.ok (), { Mat.new with colorspace := BGR }) ∧
    (Mat.new.setColorspace BGR).2.type = CV_8UC1 ∧
    (Mat.new.setColorspace BGR).2.type ≠ CV_8UC3 ∧
    (Mat.new.setColorspace BGR).2.toMat.channels = 1 := by
  decide

end cspace

namespace cspace

open cv (CV_8UC1 CV_8UC3)
open colorspace_t

/-! ## The 2x2 scenario -/

theorem ext_Vec3b (a b : List Nat) (n : Nat) (ha : a.length = 3 * n) (hb : b.length = 3 * n)
    (h : ∀ k, k < n → Vec3b_at a k = Vec3b_at b k) : a = b := by
  apply List.ext_getElem?
  intro i
  by_cases hi : i < 3 * n
  · have hq : ∃ q, q < n ∧ (i = 3 * q ∨ i = 3 * q + 1 ∨ i = 3 * q + 2) :=
      ⟨i / 3, by omega, by omega⟩
    obtain ⟨q, hqn, hcase⟩ := hq
    have e := h q hqn
    simp only [Vec3b_at, Prod.mk.injEq] at e
    obtain ⟨e0, e1, e2⟩ := e
    rcases hcase with e | e | e <;> subst e <;> assumption
  · rw [List.getElem?_eq_none (by omega), List.getElem?_eq_none (by omega)]

/-- A 2x2 mask of 200s paints all four pixels. -/
theorem paint_mask_all_four (hue : Nat) (b : List Nat) (hb : b.length = 12) :
    paint_mask hue [200, 200, 200, 200] 4 b =
      [hue, 255, 255, hue, 255, 255, hue, 255, 255, hue, 255, 255] := by
  obtain ⟨hl, hp⟩ := paint_mask_spec hue [200, 200, 200, 200] b 4 hb
  refine ext_Vec3b _ _ 4 (by rw [hl, hb]) rfl fun k hk => ?_
  rw [hp k hk]
  interval_cases k <;> rfl

/-- C19 fails as stated: on the 2x2 mid-gray `BGR` background with the 2x2 mask
of 200s the working buffer is uniformly (100, 255, 255) in the single-mask form
and (255, 255, 255) in the one-element list and vector forms; the hue is
neither 127 nor 128. -/
theorem highlight_scenario_counterexample :
    workingBuffer samplePrimitives
      (heapOf [[128, 128, 128, 128, 128, 128, 128, 128, 128, 128, 128, 128],
        [200, 200, 200, 200]])
      (imageAt 0 2 2 CV_8UC3 BGR) (highlight_mask 100 (imageAt 1 2 2 CV_8UC1 GRAY).toMat) =
        some [100, 255, 255, 100, 255, 255, 100, 255, 255, 100, 255, 255] ∧
    workingBuffer samplePrimitives
      (heapOf [[128, 128, 128, 128, 128, 128, 128, 128, 128, 128, 128, 128],
        [200, 200, 200, 200]])
      (imageAt 0 2 2 CV_8UC3 BGR)
      (fun out h1 => highlight_masks (hue_map ([imageAt 1 2 2 CV_8UC1 GRAY].length % 256))
        out h1 [imageAt 1 2 2 CV_8UC1 GRAY]) =
        some [255, 255, 255, 255, 255, 255, 255, 255, 255, 255, 255, 255] ∧
    pixelsOf (highlightOverBg samplePrimitives
      (heapOf [[128, 128, 128, 128, 128, 128, 128, 128, 128, 128, 128, 128],
        [200, 200, 200, 200]])
      (imageAt 0 2 2 CV_8UC3 BGR) (imageAt 1 2 2 CV_8UC1 GRAY)) =
        some (samplePrimitives .COLOR_HSV2BGR
          [100, 255, 255, 100, 255, 255, 100, 255, 255, 100, 255, 255]) ∧
    pixelsOf (highlightOverBg_list samplePrimitives
      (heapOf [[128, 128, 128, 128, 128, 128, 128, 128, 128, 128, 128, 128],
        [200, 200, 200, 200]])
      (imageAt 0 2 2 CV_8UC3 BGR) [imageAt 1 2 2 CV_8UC1 GRAY]) =
        some (samplePrimitives .COLOR_HSV2BGR
          [255, 255, 255, 255, 255, 255, 255, 255, 255, 255, 255, 255]) := by
  decide

/-- C19 as amended: for a 2x2 `BGR` background over a `CV_8UC3` buffer and one
2x2 mask whose four cells are 200, the working buffer handed to the final
`toBGR` is uniformly (100, 255, 255) in the single-mask form and uniformly
(255, 255, 255) in the one-element list and vector forms (hue
`1 * (255 / 1) = 255`); each form returns a 2x2 image tagged `BGR` whose bytes
are `HSV2BGR` of that buffer. The buffer of `to3ChannelGray(HSV)` is taken to
hold four pixels of three bytes. -/
theorem highlight_scenario (prim : cv.Primitives) (h : cv.Heap) (bg m : Mat)
    (hbg : bg.colorspace = BGR) (hty : bg.type = CV_8UC3)
    (hrows : bg.rows = 2) (hcols : bg.cols = 2)
    (hm : h.allocated m.toMat) (hmv : h.read m.toMat = [200, 200, 200, 200])
    (hsize : ∀ h1 g, bg.to3ChannelGray prim h HSV = .ok (h1, g) →
      (h1.read g.toMat).length = 12) :
    workingBuffer prim h bg (highlight_mask 100 m.toMat) =
      some [100, 255, 255, 100, 255, 255, 100, 255, 255, 100, 255, 255] ∧
    workingBuffer prim h bg
      (fun out h1 => highlight_masks (hue_map ([m].length % 256)) out h1 [m]) =
      some [255, 255, 255, 255, 255, 255, 255, 255, 255, 255, 255, 255] ∧
    (∃ h2 out, highlightOverBg prim h bg m = .ok (h2, out) ∧ out.colorspace = BGR ∧
      out.rows = 2 ∧ out.cols = 2 ∧
      h2.read out.toMat = prim .COLOR_HSV2BGR
        [100, 255, 255, 100, 255, 255, 100, 255, 255, 100, 255, 255]) ∧
    (∃ h2 out, highlightOverBg_list prim h bg [m] = .ok (h2, out) ∧ out.colorspace = BGR ∧
      out.rows = 2 ∧ out.cols = 2 ∧
      h2.read out.toMat = prim .COLOR_HSV2BGR
        [255, 255, 255, 255, 255, 255, 255, 255, 255, 255, 255, 255]) ∧
    (∃ h2 out, highlightOverBg_vector prim h bg [m] = .ok (h2, out) ∧ out.colorspace = BGR ∧
      out.rows = 2 ∧ out.cols = 2 ∧
      h2.read out.toMat = prim .COLOR_HSV2BGR
        [255, 255, 255, 255, 255, 255, 255, 255, 255, 255, 255, 255]) := by
  have hs : supported bg.colorspace := by rw [hbg]; exact fun e => by cases e
  have ha : accepts bg.toMat bg.colorspace := by
    rw [hbg]; exact accepts_of_type_3 _ _ (Or.inl rfl) hty
  obtain ⟨h1, g, p0, hto, hc, hrow, hcol, hd, hp0, hk⟩ := to3ChannelGray_HSV_ok prim h bg hs ha
  have hne : m.data ≠ some p0 := fun e => absurd (hm p0 e) (Nat.not_lt.2 hp0)
  have hmask : h1.read m.toMat = [200, 200, 200, 200] := by
    rw [keeps_read hk m.toMat hm, hmv]
  have hbuf : h1.read g.toMat = h1.bufs p0 := by simp [cv.Heap.read, hd]
  have hlen : (h1.bufs p0).length = 12 := by rw [← hbuf, hsize h1 g hto]
  have hn : g.rows * g.cols = 4 := by rw [hrow, hcol, hrows, hcols]
  have hpaint : ∀ hue, (highlight_mask hue m.toMat g.toMat h1).read g.toMat =
      [hue, 255, 255, hue, 255, 255, hue, 255, 255, hue, 255, 255] := by
    intro hue
    have e := highlight_mask_withBuf hue m.toMat g.toMat h1 p0 (h1.bufs p0) hd hne
    rw [withBuf_self] at e
    rw [e, withBuf_read_self h1 p0 _ g.toMat hd, hmask, hn, paint_mask_all_four hue _ hlen]
  have hlist : highlight_masks (hue_map (([m] : List Mat).length % 256)) g.toMat h1 [m] =
      highlight_mask 255 m.toMat g.toMat h1 := by
    have hhue : (hue_map (1 % 256)).getD 0 0 = 255 := by decide
    show highlight_mask ((hue_map (1 % 256)).getD 0 0) m.toMat g.toMat h1 = _
    rw [hhue]
  have hlt : ¬ ¬ 1 < 256 := by decide
  have hnz : ¬ 1 % 256 = 0 := by decide
  have hlen1 : ([m] : List Mat).length = 1 := rfl
  obtain ⟨a2, aout, ar, aread, atag, arow, acol⟩ :=
    toBGR_HSV_read prim (highlight_mask 100 m.toMat g.toMat h1) g hc
  obtain ⟨b2, bout, br, bread, btag, brow, bcol⟩ :=
    toBGR_HSV_read prim (highlight_mask 255 m.toMat g.toMat h1) g hc
  rw [hpaint 100] at aread
  rw [hpaint 255] at bread
  refine ⟨?_, ?_, ⟨a2, aout, ?_, atag, ?_, ?_, aread⟩, ⟨b2, bout, ?_, btag, ?_, ?_, bread⟩,
    ⟨b2, bout, ?_, btag, ?_, ?_, bread⟩⟩
  · simp only [workingBuffer, hto, hpaint 100]
  · simp only [workingBuffer, hto, hlist, hpaint 255]
  · rw [highlightOverBg_eq prim h h1 bg g m hto, ar]
  · rw [arow, hrow, hrows]
  · rw [acol, hcol, hcols]
  · rw [highlightOverBg_list_eq prim h h1 bg g [m] hto, hlen1, if_neg hlt, if_neg hnz,
      ← hlen1, hlist, br]
  · rw [brow, hrow, hrows]
  · rw [bcol, hcol, hcols]
  · rw [highlightOverBg_vector_eq prim h h1 bg g [m] hto, hlen1, if_neg hlt, if_neg hnz,
      ← hlen1, hlist, br]
  · rw [brow, hrow, hrows]
  · rw [bcol, hcol, hcols]

/-- C19 as amended, on the 2x2 mid-gray background with the sample primitives. -/
theorem highlight_scenario_witness :
    workingBuffer samplePrimitives
      (heapOf [[128, 128, 128, 128, 128, 128, 128, 128, 128, 128, 128, 128],
        [200, 200, 200, 200]])
      (imageAt 0 2 2 CV_8UC3 BGR) (highlight_mask 100 (imageAt 1 2 2 CV_8UC1 GRAY).toMat) =
        some [100, 255, 255, 100, 255, 255, 100, 255, 255, 100, 255, 255] ∧
    ∃ h2 out, highlightOverBg_list samplePrimitives
      (heapOf [[128, 128, 128, 128, 128, 128, 128, 128, 128, 128, 128, 128],
        [200, 200, 200, 200]])
      (imageAt 0 2 2 CV_8UC3 BGR) [imageAt 1 2 2 CV_8UC1 GRAY] = .ok (h2, out) ∧
      out.colorspace = BGR ∧ out.rows = 2 ∧ out.cols = 2 ∧
      h2.read out.toMat = samplePrimitives .COLOR_HSV2BGR
        [255, 255, 255, 255, 255, 255, 255, 255, 255, 255, 255, 255] :=
  have hw := highlight_scenario samplePrimitives
    (heapOf [[128, 128, 128, 128, 128, 128, 128, 128, 128, 128, 128, 128],
      [200, 200, 200, 200]])
    (imageAt 0 2 2 CV_8UC3 BGR) (imageAt 1 2 2 CV_8UC1 GRAY) rfl rfl rfl rfl
    (fun p hp => by cases hp; decide) (by decide)
    (fun h1 g hto => by
      have e := pixelsOf_ok _ h1 g hto
      have e2 : pixelsOf ((imageAt 0 2 2 CV_8UC3 BGR).to3ChannelGray samplePrimitives
          (heapOf [[128, 128, 128, 128, 128, 128, 128, 128, 128, 128, 128, 128],
            [200, 200, 200, 200]]) HSV) =
          some [0, 0, 128, 0, 0, 128, 0, 0, 128, 0, 0, 128] := by decide
      rw [e2] at e
      rw [← Option.some.inj e]
      decide)
  ⟨hw.1, hw.2.2.2.1⟩

end cspace

namespace cspace

open cv (CV_8UC1 CV_8UC3)
open colorspace_t

/-! ## Conversions and their source -/

/-- What `toBGR` returns on a `BGR` image, for any primitives: an image tagged
`BGR` whose bytes are `HSV2BGR` of the source bytes. -/
theorem toBGR_BGR_read (prim : cv.Primitives) (h : cv.Heap) (x : Mat)
    (hx : x.colorspace = BGR) :
    ∃ h1 out, x.toBGR prim h = .ok (h1, out) ∧ out.colorspace = BGR ∧
      h1.read out.toMat = prim .COLOR_HSV2BGR (h.read x.toMat) :=
  ⟨_, _, toBGR_BGR prim h x hx, hx, cvtColor_read ..⟩

/-- On a `BGR` image over a `CV_8UC3` buffer, `toBGR` returns the source header
itself and writes the `HSV2BGR` bytes into the buffer of the source. -/
theorem toBGR_BGR_overwrites (prim : cv.Primitives) (h : cv.Heap) (x : Mat) (p : Nat)
    (hx : x.colorspace = BGR) (ht : x.type = CV_8UC3) (hd : x.data = some p) :
    x.toBGR prim h = .ok (withBuf h p (prim .COLOR_HSV2BGR (h.bufs p)), x) := by
  rw [toBGR_BGR prim h x hx, cvtColor_inplace prim h x .COLOR_HSV2BGR p ht hd]
  rfl

/-- C21, evaluated where it fails: `toBGR` on the 1x1 `BGR` image with the
pixel (0, 0, 255) returns an image tagged `BGR` with the pixel
(255, 255, 255), the `HSV2BGR` value of those bytes, not the source pixel. -/
theorem toBGR_BGR_converts :
    (heapOf [[0, 0, 255]]).read (imageAt 0 1 1 CV_8UC3 BGR).toMat = [0, 0, 255] ∧
    pixelsOf ((imageAt 0 1 1 CV_8UC3 BGR).toBGR samplePrimitives (heapOf [[0, 0, 255]])) =
      some [255, 255, 255] ∧
    (imageOf ((imageAt 0 1 1 CV_8UC3 BGR).toBGR samplePrimitives
      (heapOf [[0, 0, 255]]))).map Mat.colorspace = some BGR ∧
    samplePrimitives .COLOR_HSV2BGR [0, 0, 255] = [255, 255, 255] := by
  decide

/-- Every conversion but `toBGR` of a `BGR` image leaves the buffers that
existed before the call as they were: on a supported source whose tag accepts
its buffer, `toGray`, `toHSV`, `toBGR` from another tag and `to3ChannelGray`
return and only write to buffers they allocate. -/
theorem conversions_keep (prim : cv.Primitives) (h : cv.Heap) (x : Mat)
    (hs : supported x.colorspace) (ha : accepts x.toMat x.colorspace) :
    (∃ h1 out, x.toGray prim h = .ok (h1, out) ∧ keeps h h1) ∧
    (∃ h1 out, x.toHSV prim h = .ok (h1, out) ∧ keeps h h1) ∧
    (x.colorspace ≠ BGR → ∃ h1 out, x.toBGR prim h = .ok (h1, out) ∧ keeps h h1) ∧
    (∀ c, c = BGR ∨ c = RGB ∨ c = HSV →
      ∃ h1 out, x.to3ChannelGray prim h c = .ok (h1, out) ∧ keeps h h1) := by
  have hnew : ∀ c, ({ Mat.new with colorspace := c } : Mat).data = none := fun _ => rfl
  have hgray : x.colorspace = GRAY ∨ x.colorspace = WHITE_ON_BLACK → accepts x.toMat GRAY := by
    intro hg
    rcases hg with hx | hx <;> rw [hx] at ha <;> simpa [accepts] using ha
  refine ⟨?_, ?_, ?_, ?_⟩
  · by_cases hg : x.colorspace = GRAY ∨ x.colorspace = WHITE_ON_BLACK
    · exact ⟨_, _, toGray_GRAY prim h x hg (hgray hg), keeps_refl h⟩
    · have hx : x.colorspace = BGR ∨ x.colorspace = RGB ∨ x.colorspace = HSV := by
        cases hc : x.colorspace <;> simp_all [supported]
      obtain ⟨h0, g, hr, -, -, -, hk⟩ := toGray_keeps prim h x hx
      exact ⟨h0, g, hr, hk⟩
  · cases hx : x.colorspace
    · exact absurd hx hs
    · have hr := toHSV_BGR prim h x hx
      rw [cvtColor_alloc prim h _ _ _ (Or.inl (hnew HSV))] at hr
      exact ⟨_, _, hr, keeps_alloc _ _⟩
    · have hr := toHSV_RGB prim h x hx
      rw [cvtColor_alloc prim h _ _ _ (Or.inl (hnew HSV))] at hr
      exact ⟨_, _, hr, keeps_alloc _ _⟩
    · exact ⟨_, _, toHSV_HSV prim h x hx, keeps_refl h⟩
    all_goals
      have hr := toHSV_GRAY prim h x (by simp [hx])
      rw [cvtColor_alloc prim h _ _ _ (Or.inl (hnew HSV))] at hr
      rw [cvtColor_inplace prim _ _ .COLOR_BGR2HSV h.next rfl rfl] at hr
      refine ⟨_, _, hr, Nat.le_succ _, fun q hq => ?_⟩
      have hne : q ≠ h.next := Nat.ne_of_lt hq
      simp [Function.update_noteq hne]
  · intro hnb
    cases hx : x.colorspace
    · exact absurd hx hs
    · exact absurd hx hnb
    · have hr := toBGR_RGB prim h x hx
      rw [cvtColor_alloc prim h _ _ _ (Or.inl (hnew BGR))] at hr
      exact ⟨_, _, hr, keeps_alloc _ _⟩
    · have hr := toBGR_HSV prim h x hx
      rw [cvtColor_alloc prim h _ _ _ (Or.inl (hnew BGR))] at hr
      exact ⟨_, _, hr, keeps_alloc _ _⟩
    all_goals
      have hr := toBGR_GRAY prim h x (by simp [hx])
      rw [cvtColor_alloc prim h _ _ _ (Or.inl (hnew BGR))] at hr
      exact ⟨_, _, hr, keeps_alloc _ _⟩
  · intro c hc
    obtain ⟨h0, g, hg, -, -, hk, hB, hR, hH, -, -⟩ := to3ChannelGray_stage prim h x hs ha
    rcases hc with hc | hc | hc <;> subst hc
    · obtain ⟨h2, out, hr, -, -, -, -, -, hk2⟩ := toBGR_gray_read prim h0 g hg
      exact ⟨h2, out, hB.trans hr, keeps_trans hk hk2⟩
    · obtain ⟨h2, out, hr, -, -, -, -, -, hk2⟩ := toBGR_gray_read prim h0 g hg
      exact ⟨h2, out, hR.trans hr, keeps_trans hk hk2⟩
    · obtain ⟨h2, out, hr, -, -, -, -, -, hk2⟩ := toHSV_gray_read prim h0 g hg
      exact ⟨h2, out, hH.trans hr, keeps_trans hk hk2⟩

/-- C22, evaluated where it fails: `toBGR` on the 1x1 `BGR` image with the
pixel (0, 0, 255). The result shares the buffer of the source (`*out = *this`)
and the `cvtColor` that control falls into writes into it: after the call the
source, and every handle on buffer 0, shows (255, 255, 255). -/
theorem toBGR_BGR_mutates_source :
    (heapOf [[0, 0, 255]]).read (imageAt 0 1 1 CV_8UC3 BGR).toMat = [0, 0, 255] ∧
    pixelsThrough ((imageAt 0 1 1 CV_8UC3 BGR).toBGR samplePrimitives (heapOf [[0, 0, 255]]))
      (imageAt 0 1 1 CV_8UC3 BGR).toMat = some [255, 255, 255] ∧
    pixelsThrough ((imageAt 0 1 1 CV_8UC3 BGR).toBGR samplePrimitives (heapOf [[0, 0, 255]]))
      { rows := 1, cols := 1, type := CV_8UC3, data := some 0 } = some [255, 255, 255] ∧
    (imageOf ((imageAt 0 1 1 CV_8UC3 BGR).toBGR samplePrimitives
      (heapOf [[0, 0, 255]]))).map (fun out => out.data) = some (some 0) := by
  decide

end cspace

namespace smart_tree

variable {T : Type}

/-! ## addChild and removeChild -/

theorem addChild_fst (s : Store T) (p c : Nat) (hr : expired s (s.obj c).parent = true) :
    (addChild s p c).1 = .ok () := by
  simp only [addChild, hr, if_true]

theorem addChild_alive (s : Store T) (p c : Nat) : (addChild s p c).2.alive = s.alive := by
  unfold addChild
  split <;> rfl

theorem addChild_children (s : Store T) (p c n : Nat)
    (hr : expired s (s.obj c).parent = true) :
    ((addChild s p c).2.obj n).children =
      if n = p then (s.obj p).children ++ [c] else (s.obj n).children := by
  simp only [addChild, hr, if_true, Function.update_apply]
  split_ifs <;> simp_all

theorem addChild_parent (s : Store T) (p c n : Nat)
    (hr : expired s (s.obj c).parent = true) :
    ((addChild s p c).2.obj n).parent = if n = c then some p else (s.obj n).parent := by
  simp only [addChild, hr, if_true, Function.update_apply]
  split_ifs <;> simp_all

theorem addChild_data (s : Store T) (p c n : Nat) :
    ((addChild s p c).2.obj n).data = (s.obj n).data := by
  unfold addChild
  split
  · simp only [Function.update_apply]
    split_ifs <;> simp_all
  · rfl

theorem addChild_fails (s : Store T) (p c : Nat) (hr : expired s (s.obj c).parent = false) :
    addChild s p c = (.error .assert_parentless, s) := by
  simp [addChild, hr]

theorem eraseFirst_eq (c : Nat) (l : List Nat) :
    eraseFirst c l = if c ∈ l then some (l.erase c) else none := by
  induction l with
  | nil => rfl
  | cons x xs ih =>
    unfold eraseFirst
    by_cases hx : c = x
    · subst hx
      simp
    · have hx1 : ¬ x = c := fun e => hx e.symm
      rw [if_neg hx, ih]
      by_cases hm : c ∈ xs
      · simp [hm, List.erase_cons, hx1]
      · simp [hm, hx]

theorem removeChild_fst (s : Store T) (p c : Nat) (hm : c ∈ (s.obj p).children) :
    (removeChild s p c).1 = .ok () := by
  simp only [removeChild, eraseFirst_eq, hm, if_true]

theorem removeChild_alive (s : Store T) (p c : Nat) :
    (removeChild s p c).2.alive = s.alive := by
  unfold removeChild
  split <;> rfl

theorem removeChild_children (s : Store T) (p c n : Nat) (hm : c ∈ (s.obj p).children) :
    ((removeChild s p c).2.obj n).children =
      if n = p then (s.obj p).children.erase c else (s.obj n).children := by
  simp only [removeChild, eraseFirst_eq, hm, if_true, Function.update_apply]
  split_ifs <;> simp_all

theorem removeChild_parent (s : Store T) (p c n : Nat) (hm : c ∈ (s.obj p).children) :
    ((removeChild s p c).2.obj n).parent = if n = c then none else (s.obj n).parent := by
  simp only [removeChild, eraseFirst_eq, hm, if_true, Function.update_apply]
  split_ifs <;> simp_all

theorem removeChild_fails (s : Store T) (p c : Nat) (hm : c ∉ (s.obj p).children) :
    removeChild s p c = (.error .not_a_child, s) := by
  simp only [removeChild, eraseFirst_eq, hm, if_false]

theorem removeChild_ok_mem (s s1 : Store T) (p c : Nat)
    (hr : removeChild s p c = (.ok (), s1)) : c ∈ (s.obj p).children := by
  by_contra hm
  rw [removeChild_fails s p c hm] at hr
  cases hr

theorem addChild_ok_expired (s s1 : Store T) (p c : Nat)
    (hr : addChild s p c = (.ok (), s1)) : expired s (s.obj c).parent = true := by
  cases he : expired s (s.obj c).parent with
  | true => rfl
  | false =>
    rw [addChild_fails s p c he] at hr
    cases hr

/-- C23: with `parent` alive, `addChild(parent, child)` succeeds exactly when
`child.isRoot()` is true. On success `child.getParent()` is `parent`,
`child.isRoot()` is false, `parent.getNumChildren()` has grown by one with
`child` appended last, and no other parent pointer, no other vector of
children, no data and no lifetime has changed; on a child that has a live
parent it fails and the store is as before. -/
theorem addChild_single_parent (s : Store T) (p c : Nat) (hp : s.alive p = true) :
    ((addChild s p c).1 = .ok () ↔ isRoot s c = true) ∧
    (isRoot s c = true →
      ∃ s1, addChild s p c = (.ok (), s1) ∧
        getParent s1 c = some p ∧ isRoot s1 c = false ∧
        getNumChildren s1 p = getNumChildren s p + 1 ∧
        (s1.obj p).children = (s.obj p).children ++ [c] ∧
        (∀ n, n ≠ c → (s1.obj n).parent = (s.obj n).parent) ∧
        (∀ n, n ≠ p → (s1.obj n).children = (s.obj n).children) ∧
        (∀ n, (s1.obj n).data = (s.obj n).data) ∧ s1.alive = s.alive) ∧
    (isRoot s c = false → addChild s p c = (.error .assert_parentless, s)) := by
  refine ⟨?_, ?_, fun hr => addChild_fails s p c hr⟩
  · constructor
    · intro h
      cases he : isRoot s c with
      | true => rfl
      | false =>
        rw [addChild_fails s p c he] at h
        cases h
    · exact fun hr => addChild_fst s p c hr
  · intro hr
    have hr1 : expired s (s.obj c).parent = true := hr
    have hpar : ((addChild s p c).2.obj c).parent = some p := by
      rw [addChild_parent s p c c hr1, if_pos rfl]
    have hal : (addChild s p c).2.alive p = true := by rw [addChild_alive]; exact hp
    refine ⟨(addChild s p c).2, ?_, ?_, ?_, ?_, ?_, ?_, ?_, ?_, addChild_alive s p c⟩
    · exact Prod.ext (addChild_fst s p c hr1) rfl
    · simp [getParent, lock, expired, hpar, hal]
    · simp [isRoot, expired, hpar, hal]
    · simp [getNumChildren, addChild_children s p c p hr1]
    · rw [addChild_children s p c p hr1, if_pos rfl]
    · intro n hn
      rw [addChild_parent s p c n hr1, if_neg hn]
    · intro n hn
      rw [addChild_children s p c n hr1, if_neg hn]
    · exact fun n => addChild_data s p c n

end smart_tree

namespace smart_tree

variable {T : Type}

theorem not_mem_children_of_root (s : Store T) (hw : wellParented s) (p c : Nat)
    (hr : isRoot s c = true) : c ∉ (s.obj p).children := by
  intro hm
  obtain ⟨hpar, hal⟩ := hw.2 p c hm
  simp [isRoot, expired, hpar, hal] at hr

theorem wellParented_addChild (s : Store T) (hw : wellParented s) (p c : Nat)
    (hp : s.alive p = true) (hr : expired s (s.obj c).parent = true) :
    wellParented (addChild s p c).2 := by
  have hnot : ∀ q, c ∉ (s.obj q).children := fun q => not_mem_children_of_root s hw q c hr
  constructor
  · intro n
    rw [addChild_children s p c n hr]
    by_cases hn : n = p
    · rw [if_pos hn]
      exact List.Nodup.append (hw.1 p) (List.nodup_singleton c)
        (by
          intro a ha hc
          rw [List.mem_singleton] at hc
          subst hc
          exact hnot p ha)
    · rw [if_neg hn]
      exact hw.1 n
  · intro q a ha
    rw [addChild_children s p c q hr] at ha
    rw [addChild_parent s p c a hr, addChild_alive]
    by_cases hq : q = p
    · rw [if_pos hq] at ha
      subst hq
      by_cases hac : a = c
      · rw [if_pos hac]
        exact ⟨rfl, hp⟩
      · rw [if_neg hac]
        rcases List.mem_append.1 ha with h1 | h1
        · exact hw.2 q a h1
        · exact absurd (List.mem_singleton.1 h1) hac
    · rw [if_neg hq] at ha
      have hac : a ≠ c := fun e => hnot q (e ▸ ha)
      rw [if_neg hac]
      exact hw.2 q a ha

theorem wellParented_removeChild (s : Store T) (hw : wellParented s) (p c : Nat)
    (hm : c ∈ (s.obj p).children) : wellParented (removeChild s p c).2 := by
  constructor
  · intro n
    rw [removeChild_children s p c n hm]
    by_cases hn : n = p
    · rw [if_pos hn]
      exact (hw.1 p).erase c
    · rw [if_neg hn]
      exact hw.1 n
  · intro q a ha
    rw [removeChild_children s p c q hm] at ha
    rw [removeChild_parent s p c a hm, removeChild_alive]
    by_cases hq : q = p
    · rw [if_pos hq] at ha
      subst hq
      obtain ⟨hac, ha1⟩ := (hw.1 q).mem_erase_iff.1 ha
      rw [if_neg hac]
      exact hw.2 q a ha1
    · rw [if_neg hq] at ha
      have hac : a ≠ c := by
        intro e
        subst e
        have h1 := (hw.2 q a ha).1
        have h2 := (hw.2 p a hm).1
        rw [h1] at h2
        exact hq (Option.some.inj h2)
      rw [if_neg hac]
      exact hw.2 q a ha

theorem wellParented_setData (s : Store T) (hw : wellParented s) (n : Nat) (d : T) :
    wellParented { s with obj := Function.update s.obj n { (s.obj n) with data := d } } := by
  have hch : ∀ m, ((Function.update s.obj n { (s.obj n) with data := d }) m).children =
      (s.obj m).children := by
    intro m
    simp only [Function.update_apply]
    split_ifs with h
    · subst h; rfl
    · rfl
  have hpa : ∀ m, ((Function.update s.obj n { (s.obj n) with data := d }) m).parent =
      (s.obj m).parent := by
    intro m
    simp only [Function.update_apply]
    split_ifs with h
    · subst h; rfl
    · rfl
  constructor
  · intro p
    show ((Function.update s.obj n { (s.obj n) with data := d }) p).children.Nodup
    rw [hch]
    exact hw.1 p
  · intro p c hc
    change c ∈ ((Function.update s.obj n { (s.obj n) with data := d }) p).children at hc
    rw [hch] at hc
    show ((Function.update s.obj n { (s.obj n) with data := d }) c).parent = some p ∧ _
    rw [hpa]
    exact hw.2 p c hc

/-- Every store the interface can produce is well parented. -/
theorem built_wellParented (s : Store T) (hb : Built s) : wellParented s := by
  induction hb with
  | fresh d => exact ⟨fun _ => List.nodup_nil, fun _ _ h => absurd h (List.not_mem_nil _)⟩
  | addChild p c _ hp _ hr ih =>
    have he := addChild_ok_expired _ _ p c hr
    have e := wellParented_addChild _ ih p c hp he
    rw [hr] at e
    exact e
  | removeChild p c _ _ _ hr ih =>
    have hm := removeChild_ok_mem _ _ p c hr
    have e := wellParented_removeChild _ ih p c hm
    rw [hr] at e
    exact e
  | setData n d _ ih => exact wellParented_setData _ ih n d
  | destroy q _ _ ih =>
    constructor
    · intro p
      simp only [Function.update_apply]
      split_ifs with h
      · exact List.nodup_nil
      · exact ih.1 p
    · intro p c hc
      simp only [Function.update_apply] at hc ⊢
      split_ifs at hc with h
      · exact absurd hc (List.not_mem_nil _)
      · have e := ih.2 p c hc
        rw [if_neg h]
        split_ifs <;> simp_all

end smart_tree

namespace smart_tree

variable {T : Type}

/-- C23 on fresh objects 0 and 1: `addChild(0, 1)` succeeds, after which the
parent of 1 is 0, 1 is no root and 0 has one child more. -/
theorem addChild_single_parent_witness :
    isRoot freshNodes 1 = true ∧
    ∃ s1, addChild freshNodes 0 1 = (.ok (), s1) ∧
      getParent s1 1 = some 0 ∧ isRoot s1 1 = false ∧
      getNumChildren s1 0 = getNumChildren freshNodes 0 + 1 ∧
      (s1.obj 0).children = (freshNodes.obj 0).children ++ [1] ∧
      (∀ n, n ≠ 1 → (s1.obj n).parent = (freshNodes.obj n).parent) ∧
      (∀ n, n ≠ 0 → (s1.obj n).children = (freshNodes.obj n).children) ∧
      (∀ n, (s1.obj n).data = (freshNodes.obj n).data) ∧ s1.alive = freshNodes.alive :=
  ⟨rfl, (addChild_single_parent freshNodes 0 1 rfl).2.1 rfl⟩

/-- C24: in a store the interface can produce, for a parent `p` and a child
`c` with `c.isRoot()` true, `addChild(p, c)` followed by `removeChild(p, c)`
both succeed, every vector of children (that of `p` in particular) is as
before, `c` is a root again and no other parent pointer has changed. And in
any store, `removeChild(p, c)` for a `c` that is not among the children of `p`
throws and leaves the store as it was. -/
theorem removeChild_undoes_addChild (s : Store T) (p c : Nat) :
    (Built s → isRoot s c = true →
      ∃ s1 s2, addChild s p c = (.ok (), s1) ∧ removeChild s1 p c = (.ok (), s2) ∧
        (s2.obj p).children = (s.obj p).children ∧ isRoot s2 c = true ∧
        (∀ n, (s2.obj n).children = (s.obj n).children) ∧
        (∀ n, n ≠ c → (s2.obj n).parent = (s.obj n).parent)) ∧
    (c ∉ (s.obj p).children → removeChild s p c = (.error .not_a_child, s)) := by
  refine ⟨fun hb hr => ?_, removeChild_fails s p c⟩
  have hw := built_wellParented s hb
  have hnot : c ∉ (s.obj p).children := not_mem_children_of_root s hw p c hr
  have hr1 : expired s (s.obj c).parent = true := hr
  have hch1 : ((addChild s p c).2.obj p).children = (s.obj p).children ++ [c] := by
    rw [addChild_children s p c p hr1, if_pos rfl]
  have hm : c ∈ ((addChild s p c).2.obj p).children := by
    rw [hch1]
    exact List.mem_append_right _ (List.mem_singleton_self c)
  have herase : ((s.obj p).children ++ [c]).erase c = (s.obj p).children := by
    rw [List.erase_append_right _ hnot]
    simp
  have hall : ∀ n, ((removeChild (addChild s p c).2 p c).2.obj n).children =
      (s.obj n).children := by
    intro n
    rw [removeChild_children _ p c n hm]
    by_cases hn : n = p
    · rw [if_pos hn, hch1, herase, hn]
    · rw [if_neg hn, addChild_children s p c n hr1, if_neg hn]
  refine ⟨(addChild s p c).2, (removeChild (addChild s p c).2 p c).2,
    Prod.ext (addChild_fst s p c hr1) rfl, Prod.ext (removeChild_fst _ p c hm) rfl,
    hall p, ?_, hall, ?_⟩
  · have hpar : ((removeChild (addChild s p c).2 p c).2.obj c).parent = none := by
      rw [removeChild_parent _ p c c hm, if_pos rfl]
    simp [isRoot, expired, hpar]
  · intro n hn
    rw [removeChild_parent _ p c n hm, if_neg hn, addChild_parent s p c n hr1, if_neg hn]

/-- C24 on fresh objects 0 and 1: adding 1 under 0 and removing it again leaves
0 without children and 1 a root; removing 2, never added, throws. -/
theorem removeChild_undoes_addChild_witness :
    (∃ s1 s2, addChild freshNodes 0 1 = (.ok (), s1) ∧ removeChild s1 0 1 = (.ok (), s2) ∧
      (s2.obj 0).children = (freshNodes.obj 0).children ∧ isRoot s2 1 = true ∧
      (∀ n, (s2.obj n).children = (freshNodes.obj n).children) ∧
      (∀ n, n ≠ 1 → (s2.obj n).parent = (freshNodes.obj n).parent)) ∧
    removeChild freshNodes 0 2 = (.error .not_a_child, freshNodes) :=
  ⟨(removeChild_undoes_addChild freshNodes 0 1).1 (Built.fresh fun _ => 0) rfl,
   (removeChild_undoes_addChild freshNodes 0 2).2 (List.not_mem_nil _)⟩

end smart_tree
